import Mathlib

/-!
Shallow embedding of the irwm window manager core (irwm.c) and proofs
about its specification.  The embedding covers: the command vocabulary
(name/id lookup), the error-handler dispatch policy, the override-window
tracker with its randomized placement correction, the panel registry
(paneladd, panelremove, panelswap, panelenter, panelswitch and the
skip-withdrawn do-while stepping loop), and the command-dispatch loop of
main (overlay flags, numbered selection, confirm-quit).  Window
identifiers are modelled as natural numbers with 0 standing for None; C
int variables are modelled as Int with C's truncated remainder where the
source uses `%`.
-/

namespace Irwm

/-- Macro MODULEINCREASE(n, mod, rel) from irwm.c: `n = ((n) + (mod) + (rel)) % (mod)`,
with C's truncation-toward-zero remainder (`Int.tmod`). -/
def moduleincrease (n m rel : Int) : Int := (n + m + rel).tmod m

/-- Withdrawn flag of panel slot `a` as the C loops read it (`panel[a].withdrawn`);
a read outside the array is treated as withdrawn, which keeps the loop running. -/
def wdAt (ws : List Bool) (a : Int) : Bool := ws.getD a.toNat true

/-- The do-while loop shared by panelswitch and the active-index adjustment in
panelremove: `do MODULEINCREASE(activepanel, numpanels, rel); while
(panel[activepanel].withdrawn);`.  `ws` is the list of withdrawn flags, `m` the
modulus (the current numpanels).  The loop is unbounded in C; `fuel` bounds the
number of iterations here, and `none` means the loop did not stop within
`fuel` iterations. -/
def switchLoop (ws : List Bool) (m rel : Int) : Nat → Int → Option Int
  | 0, _ => none
  | fuel+1, a =>
    if wdAt ws (moduleincrease a m rel) then switchLoop ws m rel fuel (moduleincrease a m rel)
    else some (moduleincrease a m rel)

/-- One step of the loop index, on natural numbers: adding 1 (rel = +1) or
subtracting 1 (any other rel, used at rel = -1) modulo `m`. -/
def stepIdx (m : Nat) (rel : Int) (a : Nat) : Nat :=
  if rel = 1 then (a + 1) % m else (a + (m - 1)) % m

/-- Position of the loop index after `d` steps. -/
def orbit (m : Nat) (rel : Int) (d : Nat) (a : Nat) : Nat := (stepIdx m rel)^[d] a

/-- Natural-number version of `switchLoop`, used to analyse it. -/
def seekIdx (ws : List Bool) (m : Nat) (rel : Int) : Nat → Nat → Option Nat
  | 0, _ => none
  | fuel+1, a =>
    if ws.getD (stepIdx m rel a) true then seekIdx ws m rel fuel (stepIdx m rel a)
    else some (stepIdx m rel a)

/-- Indices of the non-withdrawn (live) panel slots, in increasing order. -/
def livePos (ws : List Bool) : List Nat :=
  (List.range ws.length).filter (fun p => ! ws.getD p true)

/-- A panel from irwm.c: container window, content window, cached title,
group leader (None = 0) and withdrawn flag. -/
structure Panel where
  panel : Nat
  content : Nat
  name : String
  leader : Nat
  withdrawn : Bool
deriving DecidableEq

/-- Default used for array reads; the C loops never read out of range in the
situations covered by the theorems. -/
def dfltPanel : Panel := ⟨0, 0, "", 0, true⟩

/-- The panel-registry globals of irwm.c: the array panel[0..numpanels) with
numpanels = panels.length, together with numactive, activepanel,
activecontent and activewindow (0 stands for None). -/
structure Reg where
  panels : List Panel
  activepanel : Int
  numactive : Int
  activecontent : Nat
  activewindow : Nat
deriving DecidableEq

/-- Withdrawn flags of the registry, as scanned by the stepping loops. -/
def wsOf (r : Reg) : List Bool := r.panels.map Panel.withdrawn

def MAXPANELS : Nat := 1000

def PANEL : Nat := 1

def CONTENT : Nat := 2

/-- Number of non-withdrawn panels; the quantity the numactive counter tracks. -/
def liveCount (l : List Panel) : Nat := (l.filter (fun p => ! p.withdrawn)).length

def panelfindAux (w : Nat) (por : Nat) : Nat → List Panel → Int
  | _, [] => -1
  | i, p :: rest =>
    if (por &&& PANEL ≠ 0 ∧ w = p.panel) ∨ (por &&& CONTENT ≠ 0 ∧ w = p.content) then (i : Int)
    else panelfindAux w por (i + 1) rest

/-- panelfind from irwm.c: index of the first panel whose wrapper (bit PANEL)
or content (bit CONTENT) equals `w`; -1 when there is none. -/
def panelfind (l : List Panel) (w : Nat) (por : Nat) : Int := panelfindAux w por 0 l

/-- paneladd from irwm.c.  The wrapper window identifier created by
XCreateSimpleWindow and the title fetched by panelname are environment
inputs, passed as `wrap` and `nm`.  Returns the updated registry and the C
return value: -1 on a full registry, the existing index for a duplicate
window, else the index of the newly created panel. -/
def paneladd (r : Reg) (win : Nat) (leader : Nat) (wrap : Nat) (nm : String) : Reg × Int :=
  if r.panels.length ≥ MAXPANELS then (r, -1)
  else
    if panelfind r.panels win (PANEL ||| CONTENT) ≠ -1 then (r, panelfind r.panels win (PANEL ||| CONTENT))
    else
      ({ r with panels := r.panels ++ [⟨wrap, win, nm, leader, false⟩],
                numactive := r.numactive + 1 }, (r.panels.length : Int))

/-- Exchange entries i and j of a list (the body of panelswap, which swaps
through a temporary). -/
def swapList (l : List Panel) (i j : Nat) : List Panel :=
  (l.set i (l.getD j dfltPanel)).set j (l.getD i dfltPanel)

/-- panelswap from irwm.c. -/
def panelswap (r : Reg) (pn1 pn2 : Int) : Reg × Int :=
  if pn1 = -1 ∨ pn1 > (r.panels.length : Int) - 2 then (r, -1)
  else if pn2 = -1 ∨ pn2 > (r.panels.length : Int) - 1 then (r, -1)
  else ({ r with panels := swapList r.panels pn1.toNat pn2.toNat }, 0)

/-- panelleave from irwm.c performs only X requests (unmap wrapper and content,
delete the WM_STATE property) and changes none of the modelled registry
state. -/
def panelleaveReg (r : Reg) : Reg := r

/-- panelenter from irwm.c, on the modelled state: with no active panel it only
clears activecontent; with a stale index it warns and returns; otherwise it
restores a withdrawn active panel (clearing the flag and incrementing
numactive) and, unless the content is already active, records the new
activecontent/activewindow.  Mapping, raising and focus are X requests. -/
def panelenterReg (r : Reg) : Reg :=
  if r.activepanel = -1 then { r with activecontent := 0 }
  else if r.activepanel ≥ (r.panels.length : Int) then r
  else if (r.panels.getD r.activepanel.toNat dfltPanel).withdrawn then
    if r.activecontent = (r.panels.getD r.activepanel.toNat dfltPanel).content then
      { r with
        panels := r.panels.set r.activepanel.toNat
          { r.panels.getD r.activepanel.toNat dfltPanel with withdrawn := false },
        numactive := r.numactive + 1 }
    else
      { r with
        panels := r.panels.set r.activepanel.toNat
          { r.panels.getD r.activepanel.toNat dfltPanel with withdrawn := false },
        numactive := r.numactive + 1,
        activecontent := (r.panels.getD r.activepanel.toNat dfltPanel).content,
        activewindow := (r.panels.getD r.activepanel.toNat dfltPanel).content }
  else
    if r.activecontent = (r.panels.getD r.activepanel.toNat dfltPanel).content then r
    else
      { r with
        activecontent := (r.panels.getD r.activepanel.toNat dfltPanel).content,
        activewindow := (r.panels.getD r.activepanel.toNat dfltPanel).content }

/-- panelswitch from irwm.c: leave the current panel, advance activepanel with
the skip-withdrawn do-while loop, enter the new panel.  The loop is run with
fuel numpanels, which always suffices when the C loop terminates at all
(c10_switchLoop_terminates); when the fuel runs out — the C loop would not
terminate — the state is returned unchanged. -/
def panelswitch (r : Reg) (rel : Int) : Reg × Int :=
  if r.activepanel = -1 then (r, -1)
  else
    match switchLoop (wsOf (panelleaveReg r)) ((panelleaveReg r).panels.length : Int) rel
        (panelleaveReg r).panels.length (panelleaveReg r).activepanel with
    | none => (panelleaveReg r, 0)
    | some a2 => (panelenterReg { panelleaveReg r with activepanel := a2 }, 0)

/-- One application of `switch(+1)` (command NEXTPANEL). -/
def switchNext (r : Reg) : Reg := (panelswitch r 1).1

/-- Conditional decrement of numactive in the panelremove pass:
`if (! panel[i].withdrawn) numactive--`. -/
def rmNa (p : Panel) (na : Int) : Int := if p.withdrawn = false then na - 1 else na

/-- Active-index adjustment loop of panelremove: the skip-withdrawn do-while
loop with rel = -1, over the current (partially compacted) array with the
current numpanels as modulus.  Fuel is the physical array length; if it runs
out — the C loop would not terminate — the index is returned unchanged. -/
def adjustIdx (arr : List Panel) (np : Int) (a : Int) : Int :=
  (switchLoop (arr.map Panel.withdrawn) np (-1) arr.length a).getD a

/-- Loop state of panelremove: physical array (entries beyond the compaction
cursor keep their old values, as in C), compaction cursor j, and the
numpanels / numactive / activepanel counters. -/
structure RmSt where
  arr : List Panel
  j : Nat
  np : Int
  na : Int
  ap : Int

/-- Mark a panel withdrawn, as `panel[i].withdrawn = True` guarded by the
not-already-withdrawn test of the withdraw branch. -/
def wMark (p : Panel) : Panel :=
  if p.withdrawn = false then { p with withdrawn := true } else p

/-- Matched entry, destroy branch of the panelremove loop: numpanels--,
conditional active-index adjustment, then `if (activepanel > j) activepanel--`
and continue (the array and j are unchanged). -/
def rmBodyDestroy (st : RmSt) (na : Int) : RmSt :=
  { arr := st.arr, j := st.j, np := st.np - 1, na := na,
    ap :=
      if (if st.ap = (st.j : Int) ∧ na > 0 then adjustIdx st.arr (st.np - 1) st.ap else st.ap)
          > (st.j : Int) then
        (if st.ap = (st.j : Int) ∧ na > 0 then adjustIdx st.arr (st.np - 1) st.ap else st.ap) - 1
      else
        (if st.ap = (st.j : Int) ∧ na > 0 then adjustIdx st.arr (st.np - 1) st.ap else st.ap) }

/-- Matched entry, withdraw branch: mark entry i withdrawn in place (when not
already withdrawn), adjust the active index if needed, then fall through to
the compaction copy and j++. -/
def rmBodyWithdraw (i : Nat) (st : RmSt) (na : Int) : RmSt :=
  { arr :=
      if st.j ≠ i then
        (st.arr.set i (wMark (st.arr.getD i dfltPanel))).set st.j
          (wMark (st.arr.getD i dfltPanel))
      else st.arr.set i (wMark (st.arr.getD i dfltPanel)),
    j := st.j + 1, np := st.np, na := na,
    ap :=
      if st.ap = (st.j : Int) ∧ na > 0 then
        adjustIdx (st.arr.set i (wMark (st.arr.getD i dfltPanel))) st.np st.ap
      else st.ap }

/-- Unmatched entry: compaction copy `if (j != i) panel[j] = panel[i]` and j++. -/
def rmBodyKeep (i : Nat) (st : RmSt) : RmSt :=
  { arr := if st.j ≠ i then st.arr.set st.j (st.arr.getD i dfltPanel) else st.arr,
    j := st.j + 1, np := st.np, na := st.na, ap := st.ap }

/-- One iteration of the panelremove loop at index i: an entry is matched when
it is the removed panel pn or its leader equals pn's content c. -/
def rmBody (pn c : Nat) (destroy : Bool) (i : Nat) (st : RmSt) : RmSt :=
  if i = pn ∨ (st.arr.getD i dfltPanel).leader = c then
    if destroy then rmBodyDestroy st (rmNa (st.arr.getD i dfltPanel) st.na)
    else rmBodyWithdraw i st (rmNa (st.arr.getD i dfltPanel) st.na)
  else rmBodyKeep i st

/-- The `for (i = 0; i < n; i++)` loop of panelremove, with `cnt` remaining
iterations starting at index `i`. -/
def rmLoop (pn c : Nat) (destroy : Bool) : Nat → Nat → RmSt → RmSt
  | 0, _, st => st
  | cnt+1, i, st => rmLoop pn c destroy cnt (i + 1) (rmBody pn c destroy i st)

/-- The full panelremove pass started on registry r with pivot pn. -/
def rmRun (r : Reg) (pn : Int) (destroy : Bool) : RmSt :=
  rmLoop pn.toNat (r.panels.getD pn.toNat dfltPanel).content destroy r.panels.length 0
    { arr := r.panels, j := 0, np := (r.panels.length : Int), na := r.numactive,
      ap := r.activepanel }

/-- panelremove from irwm.c: an out-of-range index is rejected with -1 and no
mutation; otherwise a single pass deletes (destroy) or withdraws panel pn and
every panel whose leader equals pn's content, compacting the array,
maintaining numactive and adjusting the active index; activecontent is
cleared when the removed content was active, and activepanel becomes -1 when
no live panel remains. -/
def panelremove (r : Reg) (pn : Int) (destroy : Bool) : Reg × Int :=
  if pn < 0 ∨ pn ≥ (r.panels.length : Int) then (r, -1)
  else
    ({ panels := (rmRun r pn destroy).arr.take (rmRun r pn destroy).j,
       activepanel := if (rmRun r pn destroy).na = 0 then -1 else (rmRun r pn destroy).ap,
       numactive := (rmRun r pn destroy).na,
       activecontent := if (r.panels.getD pn.toNat dfltPanel).content = r.activecontent then 0
         else r.activecontent,
       activewindow := r.activewindow }, 0)

/-- Specification of the destroy cascade (claim C4): keep exactly the panels
that are neither the one at index pn nor have leader c, in order; `i` is the
absolute index of the first element of `l`. -/
def keepF (pn c : Nat) : Nat → List Panel → List Panel
  | _, [] => []
  | i, p :: l =>
    if i = pn ∨ p.leader = c then keepF pn c (i + 1) l else p :: keepF pn c (i + 1) l

/-- Number of matched (index pn or leader c) non-withdrawn panels: how many
times the panelremove pass decrements numactive. -/
def liveMatched (pn c : Nat) : Nat → List Panel → Nat
  | _, [] => 0
  | i, p :: l =>
    (if (i = pn ∨ p.leader = c) ∧ p.withdrawn = false then 1 else 0) + liveMatched pn c (i + 1) l

/-- Withdraw-mode image of the panelremove pass: matched panels marked
withdrawn in place, everything else untouched. -/
def withdrawMap (pn c : Nat) : Nat → List Panel → List Panel
  | _, [] => []
  | i, p :: l =>
    (if i = pn ∨ p.leader = c then wMark p else p) :: withdrawMap pn c (i + 1) l

/-- Concrete registry for the C4 witness: panel 1's leader is panel 0's
content, so destroying panel 0 also destroys panel 1 and keeps panel 2. -/
def c4reg : Reg :=
  { panels := [⟨1, 2, "a", 0, false⟩, ⟨3, 4, "b", 2, false⟩, ⟨5, 6, "c", 0, false⟩],
    activepanel := 0, numactive := 3, activecontent := 2, activewindow := 2 }

/-- numactive invariant of the registry (claim C9): the counter equals the
number of non-withdrawn panels. -/
def regInv (r : Reg) : Prop := r.numactive = (liveCount r.panels : Int)

/-- Concrete registry for the C9 witness. -/
def c9reg : Reg :=
  { panels := [⟨1, 2, "a", 0, false⟩, ⟨3, 4, "b", 0, true⟩],
    activepanel := 0, numactive := 1, activecontent := 2, activewindow := 2 }

def NOCOMMAND : Int := 0

def NEXTPANEL : Int := 1

def PREVPANEL : Int := 2

def RESTART : Int := 3

def QUIT : Int := 4

def LOGLIST : Int := 5

def POSITIONFIX : Int := 6

def RESIZE : Int := 7

def PANELWINDOW : Int := 10

def PROGSWINDOW : Int := 11

def CONFIRMWINDOW : Int := 12

def UPWINDOW : Int := 20

def DOWNWINDOW : Int := 21

def HIDEWINDOW : Int := 22

def OKWINDOW : Int := 23

def KOWINDOW : Int := 24

def ENDWINDOW : Int := 25

/-- Numbered selection command: NUMWINDOW(n) = 100 + n. -/
def NUMWINDOW (n : Int) : Int := 100 + n

/-- Configuration flags and the program list consumed by main's loop. -/
structure Cfg where
  confirmquit : Bool
  quitonlastclose : Bool
  singlekey : Bool
  programs : List (String × Option String)
deriving DecidableEq

/-- State of the command-dispatch loop of main: the registry, the three
overlay flags, the selection cursors, the position-fix toggle, the run and
restart flags, and the programs spawned by forkprogram so far (oldest
first). -/
structure St where
  reg : Reg
  showpanel : Bool
  showprogs : Bool
  showconfirm : Bool
  progselected : Int
  confirmselected : Int
  overridefix : Bool
  run : Bool
  restart : Bool
  spawned : List String
deriving DecidableEq

/-- Count of non-withdrawn panels before the active one: the j computed by the
NUMWINDOW handler (`for (i = 0; i < activepanel; i++) if (! withdrawn) j++`). -/
def liveBefore (r : Reg) : Int :=
  (((r.panels.take r.activepanel.toNat).filter (fun p => ! p.withdrawn)).length : Int)

/-- The repeated adjacent-swap loop of the ENDWINDOW command:
`for (i = activepanel; i < numpanels - 1; i++) panelswap(i, i + 1)`. -/
def endwLoop : Nat → Int → Reg → Reg
  | 0, _, r => r
  | cnt+1, i, r => endwLoop cnt (i + 1) (panelswap r i (i + 1)).1

/-- First command rewrite: a PANELWINDOW command with the panel list already
shown becomes PROGSWINDOW in single-key mode, else HIDEWINDOW. -/
def rewA (cfg : Cfg) (st : St) (c : Int) : Int :=
  if c = PANELWINDOW ∧ st.showpanel then (if cfg.singlekey then PROGSWINDOW else HIDEWINDOW)
  else c

/-- Second rewrite: PANELWINDOW with the program list shown, in single-key
mode, becomes HIDEWINDOW. -/
def rewB (cfg : Cfg) (st : St) (c : Int) : Int :=
  if c = PANELWINDOW ∧ st.showprogs ∧ cfg.singlekey then HIDEWINDOW else c

/-- Third rewrite: PROGSWINDOW with the program list already shown becomes
HIDEWINDOW. -/
def rewC (st : St) (c : Int) : Int :=
  if c = PROGSWINDOW ∧ st.showprogs then HIDEWINDOW else c

/-- Fourth rewrite: CONFIRMWINDOW with the confirm dialog already shown becomes
HIDEWINDOW. -/
def rewD (st : St) (c : Int) : Int :=
  if c = CONFIRMWINDOW ∧ st.showconfirm then HIDEWINDOW else c

/-- The command-rewriting prelude of the dispatch loop, in source order. -/
def rewriteCmd (cfg : Cfg) (st : St) (c : Int) : Int :=
  rewD st (rewC st (rewB cfg st (rewA cfg st c)))

/-- The NUMWINDOW block of the dispatch loop (after the activepanel guard):
with the panel list shown, switch by (command - NUMWINDOW(1) - j) where j is
the live rank of the active panel; with the program list shown, set the
cursor to command - NUMWINDOW(1); then the command becomes OKWINDOW. -/
def numStep (st : St) (c : Int) : St :=
  if st.showpanel then
    if st.showprogs then
      { st with reg := (panelswitch st.reg (c - NUMWINDOW 1 - liveBefore st.reg)).1,
                progselected := c - NUMWINDOW 1 }
    else { st with reg := (panelswitch st.reg (c - NUMWINDOW 1 - liveBefore st.reg)).1 }
  else if st.showprogs then { st with progselected := c - NUMWINDOW 1 }
  else st

/-- The `switch (command)` of the dispatch loop of main, on the modelled
state.  X-only cases (KOWINDOW's close request, RESIZE, LOGLIST's printing)
leave the modelled state unchanged and fall to the final branch.  The second
component is the next command: NOCOMMAND, except for the program-list meta
entries, which re-dispatch an engine command via `continue`. -/
def runCase (cfg : Cfg) (st : St) (c : Int) : St × Int :=
  if c = NEXTPANEL ∨ c = PREVPANEL then
    ({ st with reg := (panelswitch st.reg (if c = PREVPANEL then -1 else 1)).1 }, NOCOMMAND)
  else if c = RESTART ∨ c = QUIT then
    if ¬ cfg.confirmquit ∨ st.reg.panels.length = 0 then
      ({ st with restart := (if c = RESTART then true else st.restart), run := false },
        NOCOMMAND)
    else
      ({ st with restart := (if c = RESTART then true else st.restart),
                 showconfirm := true, confirmselected := 0 }, NOCOMMAND)
  else if c = PANELWINDOW then
    ({ st with showpanel := true, showprogs := false, showconfirm := false }, NOCOMMAND)
  else if c = PROGSWINDOW then
    ({ st with showprogs := true, showpanel := false, showconfirm := false }, NOCOMMAND)
  else if c = CONFIRMWINDOW then
    ({ st with showconfirm := true, showpanel := false, showprogs := false }, NOCOMMAND)
  else if c = UPWINDOW ∨ c = DOWNWINDOW then
    ({ st with
        reg := if st.showpanel then
            (panelswitch st.reg (if c = UPWINDOW then -1 else 1)).1
          else st.reg,
        progselected := if st.showprogs then
            moduleincrease st.progselected (cfg.programs.length : Int)
              (if c = UPWINDOW then -1 else 1)
          else st.progselected,
        confirmselected := if st.showconfirm then
            moduleincrease st.confirmselected 2 (if c = UPWINDOW then -1 else 1)
          else st.confirmselected }, NOCOMMAND)
  else if c = HIDEWINDOW ∨ c = OKWINDOW then
    if st.showpanel then ({ st with showpanel := false }, NOCOMMAND)
    else if st.showprogs then
      if c = HIDEWINDOW then ({ st with showprogs := false }, NOCOMMAND)
      else
        match (cfg.programs.getD st.progselected.toNat ("", none)).2 with
        | some path =>
          ({ st with showprogs := false, spawned := st.spawned ++ [path] }, NOCOMMAND)
        | none =>
          if (cfg.programs.getD st.progselected.toNat ("", none)).1 = "resize" then
            ({ st with showprogs := false }, RESIZE)
          else if (cfg.programs.getD st.progselected.toNat ("", none)).1 = "loglist" then
            ({ st with showprogs := false }, LOGLIST)
          else if (cfg.programs.getD st.progselected.toNat ("", none)).1 = "positionfix" then
            ({ st with showprogs := false }, POSITIONFIX)
          else if (cfg.programs.getD st.progselected.toNat ("", none)).1 = "restart" then
            ({ st with showprogs := false }, RESTART)
          else if (cfg.programs.getD st.progselected.toNat ("", none)).1 = "quit" then
            ({ st with showprogs := false }, QUIT)
          else ({ st with showprogs := false }, NOCOMMAND)
    else if st.showconfirm then
      if c = HIDEWINDOW then ({ st with showconfirm := false }, NOCOMMAND)
      else if st.confirmselected = 0 then
        ({ st with showconfirm := false, run := false }, NOCOMMAND)
      else ({ st with showconfirm := false }, NOCOMMAND)
    else (st, NOCOMMAND)
  else if c = ENDWINDOW then
    if st.showpanel ∧ st.reg.activepanel ≠ -1 ∧
        st.reg.activepanel < (st.reg.panels.length : Int) - 1 then
      ({ st with reg :=
          { endwLoop ((st.reg.panels.length : Int) - 1 - st.reg.activepanel).toNat
              st.reg.activepanel st.reg with
            activepanel := (st.reg.panels.length : Int) - 1 } }, NOCOMMAND)
    else (st, NOCOMMAND)
  else if c = POSITIONFIX then
    ({ st with overridefix := ! st.overridefix }, NOCOMMAND)
  else (st, NOCOMMAND)

/-- One iteration of the `while (command != NOCOMMAND)` loop body of main:
the command-rewriting prelude, then (for NUMWINDOW commands) the numbered
selection block — whose `continue` with no active panel returns the command
unchanged, as the C loop would spin — then the command switch. -/
def execStep (cfg : Cfg) (st : St) (c0 : Int) : St × Int :=
  if NUMWINDOW 1 ≤ rewriteCmd cfg st c0 then
    if st.showpanel ∧ st.reg.activepanel = -1 then (st, rewriteCmd cfg st c0)
    else runCase cfg (numStep st (rewriteCmd cfg st c0)) OKWINDOW
  else runCase cfg st (rewriteCmd cfg st c0)

/-- The full `while (command != NOCOMMAND)` drain loop, with fuel bounding the
number of re-dispatch iterations. -/
def execCommand (cfg : Cfg) : Nat → St → Int → St
  | 0, st, _ => st
  | fuel+1, st, c =>
    if c = NOCOMMAND then st
    else execCommand cfg fuel (execStep cfg st c).1 (execStep cfg st c).2

/-- Configuration with confirm-quit enabled and no programs, for C2. -/
def c2cfg : Cfg :=
  { confirmquit := true, quitonlastclose := false, singlekey := false, programs := [] }

/-- Initial dispatch state with one open panel and no overlay shown. -/
def c2st : St :=
  { reg := { panels := [⟨1, 2, "a", 0, false⟩], activepanel := 0, numactive := 1,
             activecontent := 2, activewindow := 2 },
    showpanel := false, showprogs := false, showconfirm := false,
    progselected := 0, confirmselected := 0, overridefix := false,
    run := true, restart := false, spawned := [] }

/-- Configuration with a single program entry, for the C3 counterexample. -/
def c3cfg : Cfg :=
  { confirmquit := false, quitonlastclose := false, singlekey := false,
    programs := [("xterm", some "/usr/bin/xterm")] }

/-- Dispatch state showing the program list with the cursor on entry 0. -/
def c3st : St :=
  { reg := { panels := [], activepanel := -1, numactive := 0, activecontent := 0,
             activewindow := 0 },
    showpanel := false, showprogs := true, showconfirm := false,
    progselected := 0, confirmselected := 0, overridefix := false,
    run := true, restart := false, spawned := [] }

/-- Configuration for the C3 witness: two program entries. -/
def c3wcfg : Cfg :=
  { confirmquit := false, quitonlastclose := false, singlekey := false,
    programs := [("xterm", some "/usr/bin/xterm"), ("quit", none)] }

/-- C3 witness state with the program list shown. -/
def c3wst : St :=
  { reg := { panels := [], activepanel := -1, numactive := 0, activecontent := 0,
             activewindow := 0 },
    showpanel := false, showprogs := true, showconfirm := false,
    progselected := 1, confirmselected := 0, overridefix := false,
    run := true, restart := false, spawned := [] }

/-- C3 witness state with the panel list shown over two live panels. -/
def c3pst : St :=
  { reg := { panels := [⟨1, 2, "a", 0, false⟩, ⟨3, 4, "b", 0, false⟩], activepanel := 0,
             numactive := 2, activecontent := 2, activewindow := 2 },
    showpanel := true, showprogs := false, showconfirm := false,
    progselected := 0, confirmselected := 0, overridefix := false,
    run := true, restart := false, spawned := [] }

/-- Size of the override window table (MAXOVERRIDE in irwm.c). -/
def MAXOVERRIDE : Nat := 1000

/-- Sentinel for an override window that has not been repositioned. -/
def UNMOVED : Int := -10000

/-- An override_redirect window entry: window, cached target position and
always-on-top flag. -/
structure OvWin where
  win : Nat
  nx : Int
  ny : Int
  ontop : Bool
deriving DecidableEq

/-- overrideexists from irwm.c: index of the first entry for win, or -1. -/
def overrideexists (ov : List OvWin) (win : Nat) : Int :=
  match ov.findIdx? (fun e => e.win = win) with
  | some i => (i : Int)
  | none => -1

/-- overrideadd from irwm.c: when the table is full, print a warning and do
nothing; otherwise append the window with UNMOVED position and ontop false. -/
def overrideadd (ov : List OvWin) (win : Nat) : List OvWin :=
  if ov.length ≥ MAXOVERRIDE then ov
  else ov ++ [⟨win, UNMOVED, UNMOVED, false⟩]

/-- An override table at capacity, for the C8 witness. -/
def fullOv : List OvWin := List.replicate 1000 ⟨7, UNMOVED, UNMOVED, false⟩

/-- A panel registry at capacity, for the C8 witness. -/
def fullReg : Reg :=
  { panels := List.replicate 1000 dfltPanel, activepanel := -1, numactive := 0,
    activecontent := 0, activewindow := 0 }

/-- Window geometry as XGetWindowAttributes reports it. -/
structure Geom where
  x : Int
  y : Int
  width : Int
  height : Int
  border : Int
deriving DecidableEq

/-- randombetween from irwm.c, with the rand() stream modelled as an oracle
`r : Nat → Nat` read at an explicit consumption index; returns the chosen
coordinate and the next index.  C's truncated % on a possibly negative
modulus is Int.tmod. -/
def randombetween (r : Nat → Nat) (k : Nat) (d c rc : Int) : Int × Nat :=
  if c ≥ rc ∧ c ≤ rc + d then (c, k)
  else if (r k) % 3 = 0 then (rc, k + 1)
  else if (r (k + 1)) % 3 = 0 then (rc + d, k + 2)
  else
    (rc + (Int.tmod ((r (k + 2) : Nat) : Int) (d + (if d < 0 then -1 else 1)) +
      (if d < 0 then d else 0)), k + 3)

/-- The x-axis randombetween call of overrideplace:
`d = rwa->width - wa.width - 2 * wa.border_width; randombetween(d, wa.x, rwa->x)`. -/
def rbX (wa rwa : Geom) (r : Nat → Nat) (k : Nat) : Int × Nat :=
  randombetween r k (rwa.width - wa.width - 2 * wa.border) wa.x rwa.x

/-- The y-axis randombetween call, consuming the stream after rbX. -/
def rbY (wa rwa : Geom) (r : Nat → Nat) (k : Nat) : Int × Nat :=
  randombetween r (rbX wa rwa r k).2 (rwa.height - wa.height - 2 * wa.border) wa.y rwa.y

/-- Body of overrideplace for the entry matching the window: return with no
move when the cached position equals the current geometry; otherwise cache a
new position per axis and issue a move unless the new position coincides with
the current one.  `wa` is the geometry XGetWindowAttributes returns. -/
def overrideplaceEntry (e : OvWin) (wa rwa : Geom) (r : Nat → Nat) (k : Nat) :
    OvWin × Option (Int × Int) × Nat :=
  if e.nx = wa.x ∧ e.ny = wa.y then (e, none, k)
  else if (rbX wa rwa r k).1 = wa.x ∧ (rbY wa rwa r k).1 = wa.y then
    ({ e with nx := (rbX wa rwa r k).1, ny := (rbY wa rwa r k).1 }, none, (rbY wa rwa r k).2)
  else
    ({ e with nx := (rbX wa rwa r k).1, ny := (rbY wa rwa r k).1 },
      some ((rbX wa rwa r k).1, (rbY wa rwa r k).1), (rbY wa rwa r k).2)

/-- overrideplace from irwm.c: apply the placement correction to the first
entry whose window is win; a window not in the table is ignored.  The middle
component is the XMoveWindow request, if one is issued. -/
def overrideplace (ov : List OvWin) (win : Nat) (wa rwa : Geom) (r : Nat → Nat) (k : Nat) :
    List OvWin × Option (Int × Int) × Nat :=
  match ov with
  | [] => ([], none, k)
  | e :: rest =>
    if e.win = win then
      ((overrideplaceEntry e wa rwa r k).1 :: rest, (overrideplaceEntry e wa rwa r k).2.1,
        (overrideplaceEntry e wa rwa r k).2.2)
    else
      (e :: (overrideplace rest win wa rwa r k).1, (overrideplace rest win wa rwa r k).2.1,
        (overrideplace rest win wa rwa r k).2.2)

/-- The call-site guard of overrideplace: it only runs when the position-fix
toggle is enabled (`if (overridefix) overrideplace(...)`). -/
def overridefixplace (fix : Bool) (ov : List OvWin) (win : Nat) (wa rwa : Geom)
    (r : Nat → Nat) (k : Nat) : List OvWin × Option (Int × Int) × Nat :=
  if fix then overrideplace ov win wa rwa r k else (ov, none, k)

/-- Effect of a move request on a window's geometry. -/
def applyMove (wa : Geom) : Option (Int × Int) → Geom
  | none => wa
  | some q => { wa with x := q.1, y := q.2 }

def BadWindowCode : Nat := 3

def BadAtomCode : Nat := 5

def X_GetWindowAttributes : Nat := 3

def X_MapWindow : Nat := 8

def X_ConfigureWindow : Nat := 12

def X_GetAtomName : Nat := 17

def X_ChangeProperty : Nat := 18

def X_SetInputFocus : Nat := 42

/-- The Error branch of main's event switch: true when the error event is
swallowed (logged and the loop continues), false when it is forwarded to the
saved default handler, which is fatal. -/
def errorSwallowed (errorCode requestCode : Nat) : Bool :=
  if errorCode = BadWindowCode ∧
      (requestCode = X_MapWindow ∨ requestCode = X_ChangeProperty ∨
        requestCode = X_SetInputFocus ∨ requestCode = X_ConfigureWindow ∨
        requestCode = X_GetWindowAttributes) then true
  else if errorCode = BadAtomCode ∧ requestCode = X_GetAtomName then true
  else false

/-- The specification of the swallow policy: a BadWindow error whose request
is one of the five listed kinds, or a BadAtom error on a name lookup. -/
def SwallowPolicy (errorCode requestCode : Nat) : Prop :=
  (errorCode = BadWindowCode ∧
    requestCode ∈ [X_MapWindow, X_ChangeProperty, X_SetInputFocus, X_ConfigureWindow,
      X_GetWindowAttributes]) ∨
  (errorCode = BadAtomCode ∧ requestCode = X_GetAtomName)

/-- Concrete registry for the C1 witness: three panels, the middle one
withdrawn, panel 0 active. -/
def c1reg : Reg :=
  { panels := [⟨1, 2, "a", 0, false⟩, ⟨3, 4, "b", 0, true⟩, ⟨5, 6, "c", 0, false⟩],
    activepanel := 0, numactive := 2, activecontent := 2, activewindow := 2 }

/-- The commandstring[] table of irwm.c restricted to its command/string
columns, in source order, up to the first NULL string (where the lookup
loops stop).  ENDGRAB shares the id -1 used as the not-found result. -/
def commandTable : List (Int × String) :=
  [(NOCOMMAND, "NOCOMMAND"), (NEXTPANEL, "NEXTPANEL"), (PREVPANEL, "PREVPANEL"),
   (RESTART, "RESTART"), (QUIT, "QUIT"), (LOGLIST, "LOGLIST"),
   (PANELWINDOW, "PANELWINDOW"), (PROGSWINDOW, "PROGSWINDOW"), (-1, "ENDGRAB"),
   (RESIZE, "RESIZE"), (POSITIONFIX, "POSITIONFIX"), (CONFIRMWINDOW, "CONFIRMWINDOW"),
   (UPWINDOW, "UPWINDOW"), (DOWNWINDOW, "DOWNWINDOW"), (HIDEWINDOW, "HIDEWINDOW"),
   (OKWINDOW, "OKWINDOW"), (KOWINDOW, "KOWINDOW"), (ENDWINDOW, "ENDWINDOW"),
   (NUMWINDOW 1, "NUMWINDOW(1)"), (NUMWINDOW 2, "NUMWINDOW(2)"),
   (NUMWINDOW 3, "NUMWINDOW(3)"), (NUMWINDOW 4, "NUMWINDOW(4)"),
   (NUMWINDOW 5, "NUMWINDOW(5)"), (NUMWINDOW 6, "NUMWINDOW(6)"),
   (NUMWINDOW 7, "NUMWINDOW(7)"), (NUMWINDOW 8, "NUMWINDOW(8)"),
   (NUMWINDOW 9, "NUMWINDOW(9)")]

/-- Decimal digits of a natural number, most significant first, as sprintf
%d prints it; fuel-bounded division recursion. -/
def natDecAux : Nat → Nat → List Char
  | 0, _ => []
  | fuel + 1, n =>
    if n < 10 then [Char.ofNat (48 + n)]
    else natDecAux fuel (n / 10) ++ [Char.ofNat (48 + n % 10)]

/-- Decimal rendering of a natural number. -/
def natDec (n : Nat) : List Char := natDecAux (n + 1) n

/-- Decimal rendering of an integer, with a leading minus sign when
negative, as sprintf %d prints it. -/
def intDec (i : Int) : List Char :=
  if i < 0 then '-' :: natDec i.natAbs else natDec i.natAbs

/-- commandtostring from irwm.c: scan the table for the first row carrying
the id; past the table, a command in the numbered range gets a synthesized
name printed with sprintf("NUMWINDOW(%d)", command); anything else gets the
error marker string. -/
def commandtostring (c : Int) : String :=
  match commandTable.find? (fun p => p.1 == c) with
  | some p => p.2
  | none =>
    if c ≥ NUMWINDOW 0 then "NUMWINDOW(" ++ String.mk (intDec c) ++ ")"
    else "ERROR: no such command"

/-- Strip an expected character sequence from the head of the input, as the
literal part of a scanf format does. -/
def dropLit : List Char → List Char → Option (List Char)
  | [], s => some s
  | _ :: _, [] => none
  | c :: cs, d :: ds => if d = c then dropLit cs ds else none

/-- Leading whitespace skip performed by scanf's %d conversion. -/
def skipWs : List Char → List Char
  | [] => []
  | c :: cs => if c = ' ' ∨ c = '\t' ∨ c = '\n' then skipWs cs else c :: cs

/-- Accumulate further decimal digits after the first. -/
def digitsAux : List Char → Nat → Nat × List Char
  | [], acc => (acc, [])
  | c :: cs, acc =>
    if c.isDigit then digitsAux cs (acc * 10 + (c.toNat - 48)) else (acc, c :: cs)

/-- Read a digit run; %d fails unless at least one digit is present. -/
def digitsRead : List Char → Option (Nat × List Char)
  | [] => none
  | c :: cs => if c.isDigit then some (digitsAux cs (c.toNat - 48)) else none

/-- The %d conversion: optional whitespace, optional sign, a digit run. -/
def scanInt (s : List Char) : Option (Int × List Char) :=
  match skipWs s with
  | '-' :: u =>
    match digitsRead u with
    | some q => some (-(q.1 : Int), q.2)
    | none => none
  | '+' :: u =>
    match digitsRead u with
    | some q => some ((q.1 : Int), q.2)
    | none => none
  | u =>
    match digitsRead u with
    | some q => some ((q.1 : Int), q.2)
    | none => none

/-- The sscanf(string, "NUMWINDOW(%d%c", &i, &par) == 2 test of
stringtocommand, with the i >= 0 and par == closing-parenthesis checks:
yields the parsed i when all succeed. -/
def parseNumwindow (s : List Char) : Option Int :=
  match dropLit "NUMWINDOW(".toList s with
  | none => none
  | some rest =>
    match scanInt rest with
    | none => none
    | some q =>
      match q.2 with
      | [] => none
      | par :: _ => if 0 ≤ q.1 ∧ par = ')' then some q.1 else none

/-- stringtocommand from irwm.c: scan the table for the first row carrying
the name; otherwise try the NUMWINDOW(n) form; otherwise -1. -/
def stringtocommand (s : String) : Int :=
  match commandTable.find? (fun p => p.2 == s) with
  | some p => p.1
  | none =>
    match parseNumwindow s.toList with
    | some i => NUMWINDOW i
    | none => -1

lemma stepIdx_lt (m : Nat) (rel : Int) (a : Nat) (hm : 0 < m) : stepIdx m rel a < m := by
  unfold stepIdx; split <;> exact Nat.mod_lt _ hm

lemma moduleincrease_step (m : Nat) (rel : Int) (a : Nat) (hm : 0 < m)
    (hrel : rel = 1 ∨ rel = -1) :
    moduleincrease (a : Int) (m : Int) rel = ((stepIdx m rel a : Nat) : Int) := by
  have hmi : (0 : Int) ≤ (m : Int) := by positivity
  rcases hrel with h | h <;> subst h
  · have h1 : ((a : Int) + m + 1) = ((a + 1 + m : Nat) : Int) := by push_cast; ring
    unfold moduleincrease
    rw [h1, Int.tmod_eq_emod (by positivity) hmi, ← Int.natCast_mod]
    have h2 : (a + 1 + m) % m = (a + 1) % m := Nat.add_mod_right (a + 1) m
    rw [h2]
    unfold stepIdx
    rw [if_pos rfl]
  · have h1 : ((a : Int) + m + (-1)) = ((a + (m - 1) : Nat) : Int) := by
      push_cast [Nat.cast_sub hm]; ring
    unfold moduleincrease
    rw [h1, Int.tmod_eq_emod (by positivity) hmi, ← Int.natCast_mod]
    unfold stepIdx
    rw [if_neg (by decide : ¬ (-1 : Int) = 1)]

lemma switchLoop_succ (ws : List Bool) (m rel : Int) (f : Nat) (a : Int) :
    switchLoop ws m rel (f + 1) a =
      if wdAt ws (moduleincrease a m rel) = true then
        switchLoop ws m rel f (moduleincrease a m rel)
      else some (moduleincrease a m rel) := rfl

lemma seekIdx_succ (ws : List Bool) (m : Nat) (rel : Int) (f : Nat) (a : Nat) :
    seekIdx ws m rel (f + 1) a =
      if ws.getD (stepIdx m rel a) true = true then seekIdx ws m rel f (stepIdx m rel a)
      else some (stepIdx m rel a) := rfl

lemma switchLoop_eq_seekIdx (ws : List Bool) (m : Nat) (rel : Int) (hm : 0 < m)
    (hrel : rel = 1 ∨ rel = -1) :
    ∀ (fuel : Nat) (a : Nat), a < m →
      switchLoop ws (m : Int) rel fuel (a : Int) =
        (seekIdx ws m rel fuel a).map (fun j => (j : Int)) := by
  intro fuel
  induction fuel with
  | zero => intro a _; rfl
  | succ f ih =>
    intro a _
    rw [switchLoop_succ, seekIdx_succ, moduleincrease_step m rel a hm hrel]
    have hwd : wdAt ws ((stepIdx m rel a : Nat) : Int) = ws.getD (stepIdx m rel a) true := by
      unfold wdAt; rw [Int.toNat_natCast]
    rw [hwd]
    by_cases h : ws.getD (stepIdx m rel a) true = true
    · rw [if_pos h, if_pos h]
      exact ih (stepIdx m rel a) (stepIdx_lt m rel a hm)
    · rw [if_neg h, if_neg h]
      rfl

lemma orbit_zero (m : Nat) (rel : Int) (a : Nat) : orbit m rel 0 a = a := rfl

lemma orbit_one (m : Nat) (rel : Int) (a : Nat) : orbit m rel 1 a = stepIdx m rel a := rfl

lemma orbit_succ_inner (m : Nat) (rel : Int) (d a : Nat) :
    orbit m rel (d + 1) a = orbit m rel d (stepIdx m rel a) :=
  Function.iterate_succ_apply (stepIdx m rel) d a

lemma orbit_pos (m : Nat) (hm : 0 < m) (d a : Nat) (ha : a < m) :
    orbit m 1 d a = (a + d) % m := by
  induction d generalizing a with
  | zero => simp [orbit_zero, Nat.mod_eq_of_lt ha]
  | succ d ih =>
    rw [orbit_succ_inner]
    have hs : stepIdx m 1 a = (a + 1) % m := by unfold stepIdx; rw [if_pos rfl]
    rw [hs, ih ((a + 1) % m) (Nat.mod_lt _ hm), Nat.mod_add_mod]
    congr 1
    omega

lemma orbit_neg (m : Nat) (hm : 0 < m) (d a : Nat) (ha : a < m) :
    orbit m (-1) d a = (a + (m - 1) * d) % m := by
  induction d generalizing a with
  | zero => simp [orbit_zero, Nat.mod_eq_of_lt ha]
  | succ d ih =>
    rw [orbit_succ_inner]
    have hs : stepIdx m (-1) a = (a + (m - 1)) % m := by
      unfold stepIdx; rw [if_neg (by decide : ¬ (-1 : Int) = 1)]
    rw [hs, ih ((a + (m - 1)) % m) (Nat.mod_lt _ hm), Nat.mod_add_mod]
    congr 1
    ring

lemma orbit_covers (m : Nat) (hm : 0 < m) (rel : Int) (hrel : rel = 1 ∨ rel = -1)
    (a p : Nat) (ha : a < m) (hp : p < m) :
    ∃ d, 1 ≤ d ∧ d ≤ m ∧ orbit m rel d a = p := by
  rcases hrel with h | h <;> subst h
  · by_cases hap : a < p
    · refine ⟨p - a, by omega, by omega, ?_⟩
      rw [orbit_pos m hm _ a ha]
      have he : a + (p - a) = p := by omega
      rw [he, Nat.mod_eq_of_lt hp]
    · refine ⟨m - a + p, by omega, by omega, ?_⟩
      rw [orbit_pos m hm _ a ha]
      have he : a + (m - a + p) = m + p := by omega
      rw [he, Nat.add_mod_left, Nat.mod_eq_of_lt hp]
  · by_cases hap : p < a
    · refine ⟨a - p, by omega, by omega, ?_⟩
      rw [orbit_neg m hm _ a ha]
      have h1 : (m - 1) * (a - p) + (a - p) = m * (a - p) := by
        have hm1 : m - 1 + 1 = m := by omega
        calc (m - 1) * (a - p) + (a - p) = ((m - 1) + 1) * (a - p) := by ring
          _ = m * (a - p) := by rw [hm1]
      have h5 : m * (a - p) = (a - p) * m := Nat.mul_comm _ _
      have h3 : a + (m - 1) * (a - p) = p + (a - p) * m := by omega
      rw [h3, Nat.add_mul_mod_self_right, Nat.mod_eq_of_lt hp]
    · refine ⟨a + m - p, by omega, by omega, ?_⟩
      rw [orbit_neg m hm _ a ha]
      have h1 : (m - 1) * (a + m - p) + (a + m - p) = m * (a + m - p) := by
        have hm1 : m - 1 + 1 = m := by omega
        calc (m - 1) * (a + m - p) + (a + m - p)
            = ((m - 1) + 1) * (a + m - p) := by ring
          _ = m * (a + m - p) := by rw [hm1]
      have h2 : (a + m - p - 1) * m + m = (a + m - p) * m := by
        have hd1 : 1 ≤ a + m - p := by omega
        calc (a + m - p - 1) * m + m = ((a + m - p - 1) + 1) * m := by ring
          _ = (a + m - p) * m := by rw [Nat.sub_add_cancel hd1]
      have h5 : m * (a + m - p) = (a + m - p) * m := Nat.mul_comm _ _
      have h3 : a + (m - 1) * (a + m - p) = p + (a + m - p - 1) * m := by omega
      rw [h3, Nat.add_mul_mod_self_right, Nat.mod_eq_of_lt hp]

lemma seekIdx_finds (ws : List Bool) (m : Nat) (rel : Int) (hm : 0 < m) :
    ∀ (fuel a : Nat),
      (∃ d, 1 ≤ d ∧ d ≤ fuel ∧ ws.getD (orbit m rel d a) true = false) →
      ∃ j, seekIdx ws m rel fuel a = some j ∧ j < m ∧ ws.getD j true = false := by
  intro fuel
  induction fuel with
  | zero => rintro a ⟨d, hd1, hd2, _⟩; omega
  | succ f ih =>
    rintro a ⟨d, hd1, hd2, hlive⟩
    rw [seekIdx_succ]
    by_cases h : ws.getD (stepIdx m rel a) true = true
    · rw [if_pos h]
      have hd1' : d ≠ 1 := by
        intro he; subst he
        rw [orbit_one] at hlive
        rw [hlive] at h
        exact absurd h (by decide)
      have hde : d = (d - 1) + 1 := by omega
      have he : orbit m rel d a = orbit m rel (d - 1) (stepIdx m rel a) := by
        conv_lhs => rw [hde]
        exact orbit_succ_inner m rel (d - 1) a
      rw [he] at hlive
      exact ih (stepIdx m rel a) ⟨d - 1, by omega, by omega, hlive⟩
    · rw [if_neg h]
      exact ⟨stepIdx m rel a, rfl, stepIdx_lt m rel a hm, by simpa using h⟩

lemma seekIdx_eq_of (ws : List Bool) (m : Nat) (rel : Int) :
    ∀ (d fuel a : Nat), 1 ≤ d → d ≤ fuel →
      ws.getD (orbit m rel d a) true = false →
      (∀ e, 1 ≤ e → e < d → ws.getD (orbit m rel e a) true = true) →
      seekIdx ws m rel fuel a = some (orbit m rel d a) := by
  intro d
  induction d with
  | zero => intro fuel a h; omega
  | succ d ih =>
    intro fuel a _ hdf hlive hdead
    obtain ⟨f, rfl⟩ : ∃ f, fuel = f + 1 := ⟨fuel - 1, by omega⟩
    rw [seekIdx_succ]
    have hshift : ∀ e', orbit m rel e' (stepIdx m rel a) = orbit m rel (e' + 1) a :=
      fun e' => (orbit_succ_inner m rel e' a).symm
    by_cases hd0 : d = 0
    · subst hd0
      rw [orbit_one] at hlive
      rw [if_neg (by rw [hlive]; exact Bool.false_ne_true), orbit_one]
    · have h1 : ws.getD (stepIdx m rel a) true = true := by
        have h2 := hdead 1 (by omega) (by omega)
        rwa [orbit_one] at h2
      rw [if_pos h1, ← hshift d]
      exact ih f (stepIdx m rel a) (by omega) (by omega)
        (by rw [hshift d]; exact hlive)
        (fun e he1 he2 => by rw [hshift e]; exact hdead (e + 1) (by omega) (by omega))

lemma mem_livePos (ws : List Bool) (q : Nat) :
    q ∈ livePos ws ↔ q < ws.length ∧ ws.getD q true = false := by
  unfold livePos
  rw [List.mem_filter, List.mem_range]
  simp

lemma livePos_pairwise (ws : List Bool) : (livePos ws).Pairwise (· < ·) :=
  (List.pairwise_lt_range ws.length).filter _

lemma livePos_getD_lt_getD (ws : List Bool) (s t : Nat) (hst : s < t)
    (ht : t < (livePos ws).length) :
    (livePos ws).getD s 0 < (livePos ws).getD t 0 := by
  have hs : s < (livePos ws).length := lt_trans hst ht
  rw [List.getD_eq_get _ _ hs, List.getD_eq_get _ _ ht]
  exact List.pairwise_iff_get.mp (livePos_pairwise ws) ⟨s, hs⟩ ⟨t, ht⟩ hst

lemma livePos_getD_le_getD (ws : List Bool) (s t : Nat) (hst : s ≤ t)
    (ht : t < (livePos ws).length) :
    (livePos ws).getD s 0 ≤ (livePos ws).getD t 0 := by
  rcases Nat.lt_or_ge s t with h | h
  · exact le_of_lt (livePos_getD_lt_getD ws s t h ht)
  · have he : s = t := by omega
    rw [he]

lemma livePos_getD_mem (ws : List Bool) (t : Nat) (ht : t < (livePos ws).length) :
    (livePos ws).getD t 0 ∈ livePos ws := by
  rw [List.getD_eq_get _ _ ht]
  exact List.get_mem _ _ _

lemma livePos_index (ws : List Bool) (a : Nat) (ha : a ∈ livePos ws) :
    ∃ t, t < (livePos ws).length ∧ (livePos ws).getD t 0 = a := by
  obtain ⟨⟨t, ht⟩, hv⟩ := List.mem_iff_get.mp ha
  exact ⟨t, ht, by rw [List.getD_eq_get _ _ ht]; exact hv⟩

/-- Landing point of the skip-withdrawn loop with rel = +1: starting from the
live position of rank `t`, the loop stops at the live position of rank
`(t + 1) mod k`, where `k` is the number of live positions. -/
lemma livePos_next (ws : List Bool) (t : Nat) (ht : t < (livePos ws).length) :
    seekIdx ws ws.length 1 ws.length ((livePos ws).getD t 0) =
      some ((livePos ws).getD ((t + 1) % (livePos ws).length) 0) := by
  have haMem : (livePos ws).getD t 0 ∈ livePos ws := livePos_getD_mem ws t ht
  obtain ⟨han, halive⟩ := (mem_livePos ws _).mp haMem
  by_cases hcase : t + 1 < (livePos ws).length
  · rw [Nat.mod_eq_of_lt hcase]
    have hbMem : (livePos ws).getD (t + 1) 0 ∈ livePos ws := livePos_getD_mem ws (t + 1) hcase
    obtain ⟨hbn, hblive⟩ := (mem_livePos ws _).mp hbMem
    have hab : (livePos ws).getD t 0 < (livePos ws).getD (t + 1) 0 :=
      livePos_getD_lt_getD ws t (t + 1) (by omega) hcase
    set a := (livePos ws).getD t 0 with haa
    set b := (livePos ws).getD (t + 1) 0 with hbb
    have horb : orbit ws.length 1 (b - a) a = b := by
      rw [orbit_pos ws.length (by omega) _ a han]
      have he : a + (b - a) = b := by omega
      rw [he, Nat.mod_eq_of_lt hbn]
    have hdead : ∀ e, 1 ≤ e → e < b - a → ws.getD (orbit ws.length 1 e a) true = true := by
      intro e he1 he2
      rw [orbit_pos ws.length (by omega) e a han]
      have hlt : a + e < b := by omega
      have hlt2 : a + e < ws.length := by omega
      rw [Nat.mod_eq_of_lt hlt2]
      cases hval : ws.getD (a + e) true
      · exfalso
        obtain ⟨s, hs, hsv⟩ := livePos_index ws (a + e) ((mem_livePos ws _).mpr ⟨hlt2, hval⟩)
        rcases Nat.lt_or_ge s (t + 1) with hst | hst
        · have hle : (livePos ws).getD s 0 ≤ a := livePos_getD_le_getD ws s t (by omega) ht
          omega
        · have hle : b ≤ (livePos ws).getD s 0 := livePos_getD_le_getD ws (t + 1) s hst hs
          omega
      · rfl
    have hfin := seekIdx_eq_of ws ws.length 1 (b - a) ws.length a (by omega) (by omega)
      (by rw [horb]; exact hblive) hdead
    rw [horb] at hfin
    exact hfin
  · have hteq : t + 1 = (livePos ws).length := by omega
    rw [hteq, Nat.mod_self]
    have hk0 : 0 < (livePos ws).length := by omega
    have hbMem : (livePos ws).getD 0 0 ∈ livePos ws := livePos_getD_mem ws 0 hk0
    obtain ⟨hbn, hblive⟩ := (mem_livePos ws _).mp hbMem
    have hba : (livePos ws).getD 0 0 ≤ (livePos ws).getD t 0 :=
      livePos_getD_le_getD ws 0 t (Nat.zero_le t) ht
    set a := (livePos ws).getD t 0 with haa
    set b := (livePos ws).getD 0 0 with hbb
    have horb : orbit ws.length 1 (ws.length - a + b) a = b := by
      rw [orbit_pos ws.length (by omega) _ a han]
      have he : a + (ws.length - a + b) = ws.length + b := by omega
      rw [he, Nat.add_mod_left, Nat.mod_eq_of_lt hbn]
    have hdead : ∀ e, 1 ≤ e → e < ws.length - a + b →
        ws.getD (orbit ws.length 1 e a) true = true := by
      intro e he1 he2
      rw [orbit_pos ws.length (by omega) e a han]
      rcases Nat.lt_or_ge (a + e) ws.length with hsm | hsm
      · rw [Nat.mod_eq_of_lt hsm]
        cases hval : ws.getD (a + e) true
        · exfalso
          obtain ⟨s, hs, hsv⟩ := livePos_index ws (a + e) ((mem_livePos ws _).mpr ⟨hsm, hval⟩)
          have hle : (livePos ws).getD s 0 ≤ a := livePos_getD_le_getD ws s t (by omega) ht
          omega
        · rfl
      · have hq : (a + e) % ws.length = a + e - ws.length := by
          rw [Nat.mod_eq_sub_mod hsm, Nat.mod_eq_of_lt (by omega)]
        rw [hq]
        cases hval : ws.getD (a + e - ws.length) true
        · exfalso
          obtain ⟨s, hs, hsv⟩ := livePos_index ws (a + e - ws.length)
            ((mem_livePos ws _).mpr ⟨by omega, hval⟩)
          have hle : b ≤ (livePos ws).getD s 0 :=
            livePos_getD_le_getD ws 0 s (Nat.zero_le s) hs
          omega
        · rfl
    have hfin := seekIdx_eq_of ws ws.length 1 (ws.length - a + b) ws.length a (by omega)
      (by omega) (by rw [horb]; exact hblive) hdead
    rw [horb] at hfin
    exact hfin

/-- Claim C10: the skip-withdrawn do-while loop of panelswitch (and the analogous
active-index adjustment loop of panelremove) terminates, for every starting index
in range and stepping direction plus or minus one, whenever at least one panel
slot below the modulus is not withdrawn; `m` iterations of fuel always suffice,
so the embedded step function is total under that liveness hypothesis. -/
theorem c10_switchLoop_terminates (ws : List Bool) (m rel a : Int) (fuel : Nat)
    (hrel : rel = 1 ∨ rel = -1) (hm : 0 < m) (hf : m.toNat ≤ fuel)
    (hlive : ∃ p : Nat, p < m.toNat ∧ ws.getD p true = false)
    (ha0 : 0 ≤ a) (ham : a < m) :
    ∃ j : Int, switchLoop ws m rel fuel a = some j ∧ 0 ≤ j ∧ j < m ∧
      ws.getD j.toNat true = false := by
  obtain ⟨p, hp, hpl⟩ := hlive
  have hmn0 : 0 < m.toNat := by omega
  have hman : a.toNat < m.toNat := by omega
  obtain ⟨d, hd1, hd2, hdo⟩ := orbit_covers m.toNat hmn0 rel hrel a.toNat p hman hp
  obtain ⟨j, hj, hjm, hjl⟩ := seekIdx_finds ws m.toNat rel hmn0 fuel a.toNat
    ⟨d, hd1, by omega, by rw [hdo]; exact hpl⟩
  have hbr := switchLoop_eq_seekIdx ws m.toNat rel hmn0 hrel fuel a.toNat hman
  rw [hj] at hbr
  have hm2 : ((m.toNat : Nat) : Int) = m := Int.toNat_of_nonneg (le_of_lt hm)
  have ha2 : ((a.toNat : Nat) : Int) = a := Int.toNat_of_nonneg ha0
  rw [hm2, ha2] at hbr
  refine ⟨(j : Int), hbr, by positivity, by omega, ?_⟩
  rw [Int.toNat_natCast]
  exact hjl

lemma livePos_length_cons (b : Bool) (ws : List Bool) :
    (livePos (b :: ws)).length = (if b then 0 else 1) + (livePos ws).length := by
  have hfun : ((fun p => ! (b :: ws).getD p true) ∘ Nat.succ) = (fun p => ! ws.getD p true) := by
    funext q
    simp
  unfold livePos
  rw [List.length_cons, List.range_succ_eq_map, List.filter_cons, List.filter_map, hfun]
  cases b <;> simp [Nat.add_comm]

lemma liveCount_eq_livePos_length (l : List Panel) :
    liveCount l = (livePos (l.map Panel.withdrawn)).length := by
  induction l with
  | nil => rfl
  | cons p l ih =>
    rw [List.map_cons, livePos_length_cons]
    unfold liveCount at *
    rw [List.filter_cons]
    cases hw : p.withdrawn <;> simp [hw, ih, Nat.add_comm]

lemma wsOf_length (r : Reg) : (wsOf r).length = r.panels.length := List.length_map _ _

lemma wsOf_getD (r : Reg) (i : Nat) (hi : i < r.panels.length) :
    (wsOf r).getD i true = (r.panels.getD i dfltPanel).withdrawn := by
  unfold wsOf
  rw [List.getD_eq_get _ _ (by simpa using hi), List.getD_eq_get _ _ hi, List.get_map]

lemma panelswitch_some (r : Reg) (rel : Int) (hne : ¬ r.activepanel = -1) (b : Int)
    (hl : switchLoop (wsOf r) (r.panels.length : Int) rel r.panels.length r.activepanel
      = some b) :
    panelswitch r rel = (panelenterReg { r with activepanel := b }, 0) := by
  unfold panelswitch panelleaveReg
  rw [if_neg hne, hl]

lemma panelenterReg_live (r : Reg) (b : Nat) (hb : b < r.panels.length)
    (hlive : (r.panels.getD b dfltPanel).withdrawn = false) :
    (panelenterReg { r with activepanel := ((b : Nat) : Int) }).panels = r.panels ∧
    (panelenterReg { r with activepanel := (b : Int) }).numactive = r.numactive ∧
    (panelenterReg { r with activepanel := (b : Int) }).activepanel = (b : Int) := by
  have hA : ¬ (({ r with activepanel := ((b : Nat) : Int) } : Reg).activepanel = -1) := by
    show ¬ (((b : Nat) : Int) = -1)
    omega
  have hB : ¬ (({ r with activepanel := ((b : Nat) : Int) } : Reg).activepanel ≥
      ((({ r with activepanel := ((b : Nat) : Int) } : Reg).panels.length : Nat) : Int)) := by
    show ¬ (((b : Nat) : Int) ≥ (r.panels.length : Int))
    omega
  have hC : (({ r with activepanel := ((b : Nat) : Int) } : Reg).panels.getD
      ({ r with activepanel := ((b : Nat) : Int) } : Reg).activepanel.toNat
      dfltPanel).withdrawn = false := by
    show (r.panels.getD ((b : Nat) : Int).toNat dfltPanel).withdrawn = false
    rw [Int.toNat_natCast]
    exact hlive
  unfold panelenterReg
  rw [if_neg hA, if_neg hB, hC]
  rw [if_neg (by decide : ¬ (false = true))]
  split_ifs with h4 <;> exact ⟨rfl, rfl, rfl⟩

lemma switchNext_step (r : Reg) (t : Nat)
    (ht : t < (livePos (wsOf r)).length)
    (hap : r.activepanel = (((livePos (wsOf r)).getD t 0 : Nat) : Int)) :
    (switchNext r).panels = r.panels ∧ (switchNext r).numactive = r.numactive ∧
      (switchNext r).activepanel =
        (((livePos (wsOf r)).getD ((t + 1) % (livePos (wsOf r)).length) 0 : Nat) : Int) := by
  have haMem := livePos_getD_mem (wsOf r) t ht
  obtain ⟨han, halive⟩ := (mem_livePos _ _).mp haMem
  have hlen := wsOf_length r
  have hn0 : 0 < r.panels.length := by omega
  have hqlt : (t + 1) % (livePos (wsOf r)).length < (livePos (wsOf r)).length :=
    Nat.mod_lt _ (by omega)
  have hbMem := livePos_getD_mem (wsOf r) ((t + 1) % (livePos (wsOf r)).length) hqlt
  obtain ⟨hbn, hblive⟩ := (mem_livePos _ _).mp hbMem
  have hseek := livePos_next (wsOf r) t ht
  rw [hlen] at hseek
  have hbr := switchLoop_eq_seekIdx (wsOf r) r.panels.length 1 hn0 (Or.inl rfl)
    r.panels.length ((livePos (wsOf r)).getD t 0) (by omega)
  rw [hseek] at hbr
  have hne : ¬ r.activepanel = -1 := by
    have hnn : (0 : Int) ≤ (((livePos (wsOf r)).getD t 0 : Nat) : Int) := Int.natCast_nonneg _
    omega
  have hps : panelswitch r 1 =
      (panelenterReg { r with activepanel :=
        (((livePos (wsOf r)).getD ((t + 1) % (livePos (wsOf r)).length) 0 : Nat) : Int) }, 0) := by
    apply panelswitch_some r 1 hne
    rw [hap]
    exact hbr
  have hlive2 : (r.panels.getD ((livePos (wsOf r)).getD ((t + 1) % (livePos (wsOf r)).length) 0)
      dfltPanel).withdrawn = false := by
    rw [← wsOf_getD r _ (by omega)]
    exact hblive
  have hfin := panelenterReg_live r _ (by omega) hlive2
  unfold switchNext
  rw [hps]
  exact hfin

lemma switchNext_iter (s : Nat) : ∀ (r : Reg) (t : Nat),
    t < (livePos (wsOf r)).length →
    r.activepanel = (((livePos (wsOf r)).getD t 0 : Nat) : Int) →
    (switchNext^[s] r).panels = r.panels ∧
      (switchNext^[s] r).activepanel =
        (((livePos (wsOf r)).getD ((t + s) % (livePos (wsOf r)).length) 0 : Nat) : Int) := by
  induction s with
  | zero =>
    intro r t ht hap
    refine ⟨rfl, ?_⟩
    rw [Function.iterate_zero_apply, Nat.add_zero, Nat.mod_eq_of_lt ht]
    exact hap
  | succ s ih =>
    intro r t ht hap
    rw [Function.iterate_succ_apply]
    obtain ⟨hp, hn, ha⟩ := switchNext_step r t ht hap
    have hws : wsOf (switchNext r) = wsOf r := by unfold wsOf; rw [hp]
    have ht' : (t + 1) % (livePos (wsOf r)).length < (livePos (wsOf r)).length :=
      Nat.mod_lt _ (by omega)
    have hih := ih (switchNext r) ((t + 1) % (livePos (wsOf r)).length)
      (by rw [hws]; exact ht') (by rw [hws]; exact ha)
    rw [hws] at hih
    obtain ⟨hp2, ha2⟩ := hih
    refine ⟨by rw [hp2, hp], ?_⟩
    rw [ha2, Nat.mod_add_mod]
    have he : t + 1 + s = t + (s + 1) := by omega
    rw [he]

/-- Claim C1: in a registry whose active index is in range and refers to a
non-withdrawn panel, applying switch(+1) (panelswitch with rel = 1) k times,
where k is the number of non-withdrawn panels, returns the active index to
its original value, and after each of the k applications the active index is
in range and refers to a panel whose withdrawn flag is false. -/
theorem c1_switch_cycle (r : Reg)
    (h0 : 0 ≤ r.activepanel) (h1 : r.activepanel < (r.panels.length : Int))
    (h2 : (wsOf r).getD r.activepanel.toNat true = false) :
    (switchNext^[liveCount r.panels] r).activepanel = r.activepanel ∧
      ∀ s, 1 ≤ s → s ≤ liveCount r.panels →
        0 ≤ (switchNext^[s] r).activepanel ∧
        (switchNext^[s] r).activepanel < ((switchNext^[s] r).panels.length : Int) ∧
        (wsOf (switchNext^[s] r)).getD (switchNext^[s] r).activepanel.toNat true = false := by
  have hlen := wsOf_length r
  have hamem : r.activepanel.toNat ∈ livePos (wsOf r) :=
    (mem_livePos _ _).mpr ⟨by omega, h2⟩
  obtain ⟨t, ht, htv⟩ := livePos_index _ _ hamem
  have hap : r.activepanel = (((livePos (wsOf r)).getD t 0 : Nat) : Int) := by
    rw [htv]; omega
  have hk : liveCount r.panels = (livePos (wsOf r)).length := liveCount_eq_livePos_length _
  constructor
  · obtain ⟨hp, ha⟩ := switchNext_iter (liveCount r.panels) r t ht hap
    rw [ha, hk, Nat.add_mod_right, Nat.mod_eq_of_lt ht, htv]
    omega
  · intro s hs1 hs2
    obtain ⟨hp, ha⟩ := switchNext_iter s r t ht hap
    have hqlt : (t + s) % (livePos (wsOf r)).length < (livePos (wsOf r)).length :=
      Nat.mod_lt _ (by omega)
    have hqmem := livePos_getD_mem (wsOf r) ((t + s) % (livePos (wsOf r)).length) hqlt
    obtain ⟨hqn, hqlive⟩ := (mem_livePos _ _).mp hqmem
    refine ⟨by rw [ha]; positivity, ?_, ?_⟩
    · rw [ha, hp]
      omega
    · have hws : wsOf (switchNext^[s] r) = wsOf r := by unfold wsOf; rw [hp]
      rw [hws, ha, Int.toNat_natCast]
      exact hqlive

lemma take_set_succ {α : Type} (l : List α) (j : Nat) (x : α) (h : j < l.length) :
    (l.set j x).take (j + 1) = l.take j ++ [x] := by
  rw [List.set_take, List.take_succ, List.getElem?_eq_getElem h]
  show (l.take j ++ [l[j]]).set j x = _
  rw [List.set_append, if_neg (by rw [List.length_take]; omega)]
  congr 1
  rw [List.length_take]
  have he : j - j ⊓ l.length = 0 := by omega
  rw [he]
  rfl

lemma take_set_self {α : Type} (l : List α) (j : Nat) (x : α) :
    (l.set j x).take j = l.take j := by
  rw [List.set_take]
  apply List.set_eq_of_length_le
  rw [List.length_take]
  omega

lemma take_succ_getD {α : Type} (l : List α) (j : Nat) (d : α) (h : j < l.length) :
    l.take (j + 1) = l.take j ++ [l.getD j d] := by
  rw [List.take_succ, List.getElem?_eq_getElem h, List.getD_eq_getElem?_getD,
    List.getElem?_eq_getElem h]
  rfl

lemma drop_cons_getD {α : Type} (l : List α) (i : Nat) (d : α) (h : i < l.length) :
    l.drop i = l.getD i d :: l.drop (i + 1) := by
  rw [List.getD_eq_get _ _ h]
  exact List.drop_eq_get_cons h

lemma getD_eq_of_drop_eq {α : Type} (l l' : List α) (i : Nat) (d : α)
    (h : l.drop i = l'.drop i) : l.getD i d = l'.getD i d := by
  have h0 : l[i]? = l'[i]? := by
    have h1 := congrArg (fun t => t[0]?) h
    simpa [List.getElem?_drop] using h1
  rw [List.getD_eq_getElem?_getD, List.getD_eq_getElem?_getD, h0]

lemma liveCount_cons (p : Panel) (l : List Panel) :
    liveCount (p :: l) = (if p.withdrawn then 0 else 1) + liveCount l := by
  unfold liveCount
  rw [List.filter_cons]
  cases hw : p.withdrawn <;> simp [Nat.add_comm]

lemma liveCount_keepF (pn c : Nat) : ∀ (l : List Panel) (i : Nat),
    liveCount l = liveCount (keepF pn c i l) + liveMatched pn c i l := by
  intro l
  induction l with
  | nil => intro i; rfl
  | cons p l ih =>
    intro i
    have hih := ih (i + 1)
    by_cases hm : i = pn ∨ p.leader = c <;> cases hw : p.withdrawn <;>
      simp [keepF, liveMatched, hm, hw, liveCount_cons] <;> omega

lemma length_withdrawMap (pn c : Nat) : ∀ (l : List Panel) (i : Nat),
    (withdrawMap pn c i l).length = l.length := by
  intro l
  induction l with
  | nil => intro i; rfl
  | cons p l ih =>
    intro i
    simp [withdrawMap, ih (i + 1)]

lemma liveCount_withdrawMap (pn c : Nat) : ∀ (l : List Panel) (i : Nat),
    liveCount (withdrawMap pn c i l) + liveMatched pn c i l = liveCount l := by
  intro l
  induction l with
  | nil => intro i; rfl
  | cons p l ih =>
    intro i
    have hih := ih (i + 1)
    by_cases hm : i = pn ∨ p.leader = c <;> cases hw : p.withdrawn <;>
      simp [withdrawMap, liveMatched, wMark, hm, hw, liveCount_cons] <;> omega

lemma keepF_cons (pn c i : Nat) (p : Panel) (l : List Panel) :
    keepF pn c i (p :: l) =
      if i = pn ∨ p.leader = c then keepF pn c (i + 1) l
      else p :: keepF pn c (i + 1) l := rfl

lemma liveMatched_cons (pn c i : Nat) (p : Panel) (l : List Panel) :
    liveMatched pn c i (p :: l) =
      (if (i = pn ∨ p.leader = c) ∧ p.withdrawn = false then 1 else 0)
        + liveMatched pn c (i + 1) l := rfl

lemma withdrawMap_cons (pn c i : Nat) (p : Panel) (l : List Panel) :
    withdrawMap pn c i (p :: l) =
      (if i = pn ∨ p.leader = c then wMark p else p) :: withdrawMap pn c (i + 1) l := rfl

lemma rmBody_matched_destroy (pn c : Nat) (i : Nat) (st : RmSt)
    (hm : i = pn ∨ (st.arr.getD i dfltPanel).leader = c) :
    rmBody pn c true i st = rmBodyDestroy st (rmNa (st.arr.getD i dfltPanel) st.na) := by
  unfold rmBody
  rw [if_pos hm, if_pos rfl]

lemma rmBody_matched_withdraw (pn c : Nat) (i : Nat) (st : RmSt)
    (hm : i = pn ∨ (st.arr.getD i dfltPanel).leader = c) :
    rmBody pn c false i st = rmBodyWithdraw i st (rmNa (st.arr.getD i dfltPanel) st.na) := by
  unfold rmBody
  rw [if_pos hm, if_neg (by decide : ¬ false = true)]

lemma rmBody_unmatched (pn c : Nat) (destroy : Bool) (i : Nat) (st : RmSt)
    (hm : ¬ (i = pn ∨ (st.arr.getD i dfltPanel).leader = c)) :
    rmBody pn c destroy i st = rmBodyKeep i st := by
  unfold rmBody
  rw [if_neg hm]

lemma rmLoop_succ (pn c : Nat) (destroy : Bool) (cnt i : Nat) (st : RmSt) :
    rmLoop pn c destroy (cnt + 1) i st =
      rmLoop pn c destroy cnt (i + 1) (rmBody pn c destroy i st) := rfl

lemma rmLoop_destroy (pn c : Nat) :
    ∀ (cnt i : Nat) (st : RmSt), i + cnt = st.arr.length → st.j ≤ i →
      ((rmLoop pn c true cnt i st).arr.take (rmLoop pn c true cnt i st).j =
          st.arr.take st.j ++ keepF pn c i (st.arr.drop i)) ∧
        ((rmLoop pn c true cnt i st).na =
          st.na - (liveMatched pn c i (st.arr.drop i) : Int)) ∧
        ((rmLoop pn c true cnt i st).j = st.j + (keepF pn c i (st.arr.drop i)).length) ∧
        ((rmLoop pn c true cnt i st).np =
          st.np - ((cnt : Int) - ((keepF pn c i (st.arr.drop i)).length : Int))) ∧
        ((rmLoop pn c true cnt i st).arr.length = st.arr.length) := by
  intro cnt
  induction cnt with
  | zero =>
    intro i st hlen hji
    have hdrop : st.arr.drop i = [] := List.drop_eq_nil_of_le (by omega)
    rw [hdrop]
    simp [rmLoop, keepF, liveMatched]
  | succ cnt ih =>
    intro i st hlen hji
    have hilen : i < st.arr.length := by omega
    have hdrop := drop_cons_getD st.arr i dfltPanel hilen
    rw [rmLoop_succ]
    by_cases hm : i = pn ∨ (st.arr.getD i dfltPanel).leader = c
    · rw [rmBody_matched_destroy pn c i st hm]
      set st2 := rmBodyDestroy st (rmNa (st.arr.getD i dfltPanel) st.na) with hst2
      have harr : st2.arr = st.arr := by rw [hst2]; rfl
      have hj : st2.j = st.j := by rw [hst2]; rfl
      have hna : st2.na = rmNa (st.arr.getD i dfltPanel) st.na := by rw [hst2]; rfl
      have hnp : st2.np = st.np - 1 := by rw [hst2]; rfl
      obtain ⟨h1, h2, h3, h4, h5⟩ := ih (i + 1) st2
        (by rw [harr]; omega) (by rw [hj]; omega)
      rw [harr, hj] at h1
      rw [harr, hna] at h2
      rw [harr, hj] at h3
      rw [harr, hnp] at h4
      rw [harr] at h5
      have hk : keepF pn c i (st.arr.drop i) = keepF pn c (i + 1) (st.arr.drop (i + 1)) := by
        rw [hdrop, keepF_cons, if_pos hm]
      have hl : liveMatched pn c i (st.arr.drop i) =
          (if (st.arr.getD i dfltPanel).withdrawn = false then 1 else 0)
            + liveMatched pn c (i + 1) (st.arr.drop (i + 1)) := by
        rw [hdrop, liveMatched_cons]
        by_cases hw : (st.arr.getD i dfltPanel).withdrawn = false
        · rw [if_pos (And.intro hm hw), if_pos hw]
        · rw [if_neg (fun hc => hw hc.2), if_neg hw]
      refine ⟨?_, ?_, ?_, ?_, ?_⟩
      · rw [hk]; exact h1
      · rw [h2, hl]
        unfold rmNa
        by_cases hw : (st.arr.getD i dfltPanel).withdrawn = false
        · rw [if_pos hw, if_pos hw]
          push_cast
          omega
        · rw [if_neg hw, if_neg hw]
          push_cast
          omega
      · rw [hk]; exact h3
      · rw [h4, hk]
        push_cast
        omega
      · exact h5
    · rw [rmBody_unmatched pn c true i st hm]
      set st2 := rmBodyKeep i st with hst2
      have harrd : st2.arr.drop (i + 1) = st.arr.drop (i + 1) := by
        rw [hst2]
        unfold rmBodyKeep
        by_cases hji2 : st.j = i
        · rw [if_neg (by omega)]
        · rw [if_pos (by omega)]
          exact List.drop_set_of_lt _ _ (by omega)
      have harrl : st2.arr.length = st.arr.length := by
        rw [hst2]
        unfold rmBodyKeep
        by_cases hji2 : st.j = i
        · rw [if_neg (by omega)]
        · rw [if_pos (by omega), List.length_set]
      have hjk : st2.j = st.j + 1 := by rw [hst2]; rfl
      have hnak : st2.na = st.na := by rw [hst2]; rfl
      have hnpk : st2.np = st.np := by rw [hst2]; rfl
      have htake : st2.arr.take st2.j = st.arr.take st.j ++ [st.arr.getD i dfltPanel] := by
        rw [hjk, hst2]
        unfold rmBodyKeep
        by_cases hji2 : st.j = i
        · rw [if_neg (by omega), hji2]
          exact take_succ_getD st.arr i dfltPanel hilen
        · rw [if_pos (by omega)]
          exact take_set_succ st.arr st.j (st.arr.getD i dfltPanel) (by omega)
      obtain ⟨h1, h2, h3, h4, h5⟩ := ih (i + 1) st2
        (by rw [harrl]; omega) (by rw [hjk]; omega)
      rw [harrd, htake] at h1
      rw [harrd, hnak] at h2
      rw [harrd, hjk] at h3
      rw [harrd, hnpk] at h4
      rw [harrl] at h5
      have hk : keepF pn c i (st.arr.drop i) =
          st.arr.getD i dfltPanel :: keepF pn c (i + 1) (st.arr.drop (i + 1)) := by
        rw [hdrop, keepF_cons, if_neg hm]
      have hl : liveMatched pn c i (st.arr.drop i) =
          liveMatched pn c (i + 1) (st.arr.drop (i + 1)) := by
        rw [hdrop, liveMatched_cons, if_neg (fun hc => hm hc.1), Nat.zero_add]
      refine ⟨?_, ?_, ?_, ?_, ?_⟩
      · rw [h1, hk, List.append_assoc]
        rfl
      · rw [h2, hl]
      · rw [h3, hk, List.length_cons]
        omega
      · rw [h4, hk, List.length_cons]
        push_cast
        omega
      · exact h5

lemma rmLoop_withdraw (pn c : Nat) :
    ∀ (cnt i : Nat) (st : RmSt), i + cnt = st.arr.length → st.j = i →
      ((rmLoop pn c false cnt i st).arr =
          st.arr.take i ++ withdrawMap pn c i (st.arr.drop i)) ∧
        ((rmLoop pn c false cnt i st).na =
          st.na - (liveMatched pn c i (st.arr.drop i) : Int)) ∧
        ((rmLoop pn c false cnt i st).j = i + cnt) ∧
        ((rmLoop pn c false cnt i st).np = st.np) := by
  intro cnt
  induction cnt with
  | zero =>
    intro i st hlen hji
    have hdrop : st.arr.drop i = [] := List.drop_eq_nil_of_le (by omega)
    have htk : st.arr.take i = st.arr := by
      have hi : i = st.arr.length := by omega
      rw [hi, List.take_length]
    rw [hdrop, htk]
    simp [rmLoop, withdrawMap, liveMatched, hji]
  | succ cnt ih =>
    intro i st hlen hji
    have hilen : i < st.arr.length := by omega
    have hdrop := drop_cons_getD st.arr i dfltPanel hilen
    rw [rmLoop_succ]
    by_cases hm : i = pn ∨ (st.arr.getD i dfltPanel).leader = c
    · rw [rmBody_matched_withdraw pn c i st hm]
      set st2 := rmBodyWithdraw i st (rmNa (st.arr.getD i dfltPanel) st.na) with hst2
      have harr : st2.arr = st.arr.set i (wMark (st.arr.getD i dfltPanel)) := by
        rw [hst2]
        unfold rmBodyWithdraw
        rw [if_neg (by omega)]
      have hjw : st2.j = st.j + 1 := by rw [hst2]; rfl
      have hnaw : st2.na = rmNa (st.arr.getD i dfltPanel) st.na := by rw [hst2]; rfl
      have hnpw : st2.np = st.np := by rw [hst2]; rfl
      have harrl : st2.arr.length = st.arr.length := by rw [harr, List.length_set]
      have harrd : st2.arr.drop (i + 1) = st.arr.drop (i + 1) := by
        rw [harr]
        exact List.drop_set_of_lt _ _ (by omega)
      have htakew : st2.arr.take (i + 1) =
          st.arr.take i ++ [wMark (st.arr.getD i dfltPanel)] := by
        rw [harr]
        exact take_set_succ st.arr i _ hilen
      obtain ⟨h1, h2, h3, h4⟩ := ih (i + 1) st2 (by rw [harrl]; omega) (by rw [hjw, hji])
      rw [harrd, htakew] at h1
      rw [harrd, hnaw] at h2
      rw [hnpw] at h4
      have hwm : withdrawMap pn c i (st.arr.drop i) =
          wMark (st.arr.getD i dfltPanel) :: withdrawMap pn c (i + 1) (st.arr.drop (i + 1)) := by
        rw [hdrop, withdrawMap_cons, if_pos hm]
      have hl : liveMatched pn c i (st.arr.drop i) =
          (if (st.arr.getD i dfltPanel).withdrawn = false then 1 else 0)
            + liveMatched pn c (i + 1) (st.arr.drop (i + 1)) := by
        rw [hdrop, liveMatched_cons]
        by_cases hw : (st.arr.getD i dfltPanel).withdrawn = false
        · rw [if_pos (And.intro hm hw), if_pos hw]
        · rw [if_neg (fun hc => hw hc.2), if_neg hw]
      refine ⟨?_, ?_, ?_, ?_⟩
      · rw [h1, hwm, List.append_assoc]
        rfl
      · rw [h2, hl]
        unfold rmNa
        by_cases hw : (st.arr.getD i dfltPanel).withdrawn = false
        · rw [if_pos hw, if_pos hw]
          push_cast
          omega
        · rw [if_neg hw, if_neg hw]
          push_cast
          omega
      · rw [h3]; omega
      · exact h4
    · rw [rmBody_unmatched pn c false i st hm]
      set st2 := rmBodyKeep i st with hst2
      have harr : st2.arr = st.arr := by
        rw [hst2]
        unfold rmBodyKeep
        rw [if_neg (by omega)]
      have hjk : st2.j = st.j + 1 := by rw [hst2]; rfl
      have hnak : st2.na = st.na := by rw [hst2]; rfl
      have hnpk : st2.np = st.np := by rw [hst2]; rfl
      obtain ⟨h1, h2, h3, h4⟩ := ih (i + 1) st2 (by rw [harr]; omega) (by rw [hjk, hji])
      rw [harr] at h1
      rw [harr, hnak] at h2
      rw [hnpk] at h4
      have hwm : withdrawMap pn c i (st.arr.drop i) =
          st.arr.getD i dfltPanel :: withdrawMap pn c (i + 1) (st.arr.drop (i + 1)) := by
        rw [hdrop, withdrawMap_cons, if_neg hm]
      have hl : liveMatched pn c i (st.arr.drop i) =
          liveMatched pn c (i + 1) (st.arr.drop (i + 1)) := by
        rw [hdrop, liveMatched_cons, if_neg (fun hc => hm hc.1), Nat.zero_add]
      have htake : st.arr.take (i + 1) = st.arr.take i ++ [st.arr.getD i dfltPanel] :=
        take_succ_getD st.arr i dfltPanel hilen
      refine ⟨?_, ?_, ?_, ?_⟩
      · rw [h1, htake, hwm, List.append_assoc]
        rfl
      · rw [h2, hl]
      · rw [h3]; omega
      · exact h4

lemma liveCount_append_live (l : List Panel) (p : Panel) (hp : p.withdrawn = false) :
    liveCount (l ++ [p]) = liveCount l + 1 := by
  unfold liveCount
  rw [List.filter_append]
  simp [hp]

lemma liveCount_set_unwithdraw (l : List Panel) (i : Nat) (hi : i < l.length)
    (hw : (l.getD i dfltPanel).withdrawn = true) :
    liveCount (l.set i { l.getD i dfltPanel with withdrawn := false }) = liveCount l + 1 := by
  induction l generalizing i with
  | nil => simp at hi
  | cons p l ih =>
    cases i with
    | zero =>
      rw [List.getD_cons_zero] at hw ⊢
      rw [List.set_cons_zero, liveCount_cons, liveCount_cons, hw]
      simp
      omega
    | succ i =>
      rw [List.getD_cons_succ] at hw ⊢
      rw [List.set_cons_succ, liveCount_cons, liveCount_cons,
        ih i (by simpa using hi) hw]
      omega

/-- Claim C4: panelremove with destroy on an in-range index pn removes, in that
same call, exactly panel pn and every panel whose leader field equals pn's
content window — no other panel — and the survivors keep their relative
order: the resulting panel list is the order-preserving filter keepF. -/
theorem c4_remove_group (r : Reg) (pn : Int) (h0 : 0 ≤ pn)
    (h1 : pn < (r.panels.length : Int)) :
    (panelremove r pn true).1.panels =
      keepF pn.toNat (r.panels.getD pn.toNat dfltPanel).content 0 r.panels := by
  unfold panelremove
  rw [if_neg (by omega)]
  show (rmRun r pn true).arr.take (rmRun r pn true).j = _
  unfold rmRun
  obtain ⟨hA, _, _, _, _⟩ := rmLoop_destroy pn.toNat
    (r.panels.getD pn.toNat dfltPanel).content r.panels.length 0
    { arr := r.panels, j := 0, np := (r.panels.length : Int), na := r.numactive,
      ap := r.activepanel }
    (by show 0 + r.panels.length = r.panels.length; omega) (by show (0 : Nat) ≤ 0; omega)
  rw [hA]
  show r.panels.take 0 ++ keepF pn.toNat (r.panels.getD pn.toNat dfltPanel).content 0
    (r.panels.drop 0) = _
  rw [List.take_zero, List.drop_zero, List.nil_append]

/-- Witness for C4 on c4reg: removing panel 0 with destroy leaves exactly the
panel that did not reference its content as leader. -/
theorem c4_witness :
    ((0 : Int) ≤ 0 ∧ (0 : Int) < (c4reg.panels.length : Int)) ∧
      (panelremove c4reg 0 true).1.panels =
        keepF (0 : Int).toNat (c4reg.panels.getD (0 : Int).toNat dfltPanel).content 0
          c4reg.panels :=
  ⟨⟨by decide, by decide⟩, c4_remove_group c4reg 0 (by decide) (by decide)⟩

/-- Claim C9: regInv is preserved by paneladd (which registers a non-withdrawn
panel and increments numactive), by panelremove in both modes (which
decrements numactive once per non-withdrawn panel it destroys or withdraws),
and by panelenter (which increments numactive exactly when it restores a
withdrawn active panel).  The active index is at least -1 in every reachable
state. -/
theorem c9_numactive_invariant (r : Reg) (h : regInv r) (hap : -1 ≤ r.activepanel) :
    (∀ win leader wrap nm, regInv (paneladd r win leader wrap nm).1) ∧
    (∀ pn destroy, regInv (panelremove r pn destroy).1) ∧
    regInv (panelenterReg r) := by
  refine ⟨?_, ?_, ?_⟩
  · intro win leader wrap nm
    unfold paneladd
    split_ifs with hfull hdup
    · exact h
    · exact h
    · show r.numactive + 1 = (liveCount (r.panels ++ [⟨wrap, win, nm, leader, false⟩]) : Int)
      rw [liveCount_append_live _ _ rfl]
      unfold regInv at h
      push_cast
      omega
  · intro pn destroy
    unfold panelremove
    by_cases hrange : pn < 0 ∨ pn ≥ (r.panels.length : Int)
    · rw [if_pos hrange]
      exact h
    · rw [if_neg hrange]
      show (rmRun r pn destroy).na = (liveCount ((rmRun r pn destroy).arr.take
        (rmRun r pn destroy).j) : Int)
      unfold rmRun
      cases destroy
      · obtain ⟨hA, hN, hJ, hP⟩ := rmLoop_withdraw pn.toNat
          (r.panels.getD pn.toNat dfltPanel).content r.panels.length 0
          { arr := r.panels, j := 0, np := (r.panels.length : Int), na := r.numactive,
            ap := r.activepanel }
          (by show 0 + r.panels.length = r.panels.length; omega) (by rfl)
        rw [hA, hN, hJ]
        show r.numactive - _ = (liveCount ((r.panels.take 0 ++ withdrawMap pn.toNat
          (r.panels.getD pn.toNat dfltPanel).content 0 (r.panels.drop 0)).take
            (0 + r.panels.length)) : Int)
        rw [List.take_zero, List.drop_zero, List.nil_append]
        have hlen : (withdrawMap pn.toNat (r.panels.getD pn.toNat dfltPanel).content 0
            r.panels).length = r.panels.length := length_withdrawMap _ _ _ _
        have htk : (withdrawMap pn.toNat (r.panels.getD pn.toNat dfltPanel).content 0
            r.panels).take (0 + r.panels.length) =
            withdrawMap pn.toNat (r.panels.getD pn.toNat dfltPanel).content 0 r.panels := by
          rw [Nat.zero_add, ← hlen, List.take_length]
        rw [htk]
        have hlc := liveCount_withdrawMap pn.toNat
          (r.panels.getD pn.toNat dfltPanel).content r.panels 0
        unfold regInv at h
        push_cast
        omega
      · obtain ⟨hA, hN, hJ, hP, hL⟩ := rmLoop_destroy pn.toNat
          (r.panels.getD pn.toNat dfltPanel).content r.panels.length 0
          { arr := r.panels, j := 0, np := (r.panels.length : Int), na := r.numactive,
            ap := r.activepanel }
          (by show 0 + r.panels.length = r.panels.length; omega) (by show (0:Nat) ≤ 0; omega)
        rw [hA, hN]
        show r.numactive - _ = (liveCount (r.panels.take 0 ++ keepF pn.toNat
          (r.panels.getD pn.toNat dfltPanel).content 0 (r.panels.drop 0)) : Int)
        rw [List.take_zero, List.drop_zero, List.nil_append]
        have hlc := liveCount_keepF pn.toNat
          (r.panels.getD pn.toNat dfltPanel).content r.panels 0
        unfold regInv at h
        push_cast
        omega
  · unfold panelenterReg
    split_ifs with h1 h2 h3 h4
    · exact h
    · exact h
    · show r.numactive + 1 = (liveCount (r.panels.set r.activepanel.toNat
        { r.panels.getD r.activepanel.toNat dfltPanel with withdrawn := false }) : Int)
      rw [liveCount_set_unwithdraw r.panels r.activepanel.toNat (by omega) h3]
      unfold regInv at h
      push_cast
      omega
    · show r.numactive + 1 = (liveCount (r.panels.set r.activepanel.toNat
        { r.panels.getD r.activepanel.toNat dfltPanel with withdrawn := false }) : Int)
      rw [liveCount_set_unwithdraw r.panels r.activepanel.toNat (by omega) h3]
      unfold regInv at h
      push_cast
      omega
    · exact h
    · exact h

/-- Witness for C9 on c9reg. -/
theorem c9_witness :
    (regInv c9reg ∧ -1 ≤ c9reg.activepanel) ∧
      ((∀ win leader wrap nm, regInv (paneladd c9reg win leader wrap nm).1) ∧
        (∀ pn destroy, regInv (panelremove c9reg pn destroy).1) ∧
        regInv (panelenterReg c9reg)) :=
  ⟨⟨by unfold regInv; decide, by decide⟩,
    c9_numactive_invariant c9reg (by unfold regInv; decide) (by decide)⟩

/-- Claim C2 (code bug): from the initial state, PANELWINDOW shows exactly the
panel list; the following QUIT command — confirmquit enabled, one panel open —
then sets showconfirm without clearing showpanel, leaving two overlay flags
true at once, so the dispatch loop does not keep the three overlays mutually
exclusive (the explicit CONFIRMWINDOW case clears the other two, the QUIT
case does not). -/
theorem c2_overlay_bug :
    (execCommand c2cfg 4 c2st PANELWINDOW).showpanel = true ∧
      (execCommand c2cfg 4 c2st PANELWINDOW).showprogs = false ∧
      (execCommand c2cfg 4 c2st PANELWINDOW).showconfirm = false ∧
      (execCommand c2cfg 4 (execCommand c2cfg 4 c2st PANELWINDOW) QUIT).showpanel = true ∧
      (execCommand c2cfg 4 (execCommand c2cfg 4 c2st PANELWINDOW) QUIT).showconfirm = true := by
  decide

/-- Counterexample to C3 as stated: with the program list overlay showing
n = 1 entries, NUMWINDOW(2) (i = 2 > n) is not a no-op: it moves the
selection cursor out of range to 1 and closes the overlay. -/
theorem c3_counterexample :
    c3st.showprogs = true ∧ c3st.progselected = 0 ∧ c3cfg.programs.length = 1 ∧
      (execCommand c3cfg 4 c3st (NUMWINDOW 2)).progselected = 1 ∧
      (execCommand c3cfg 4 c3st (NUMWINDOW 2)).showprogs = false := by
  decide

lemma rewriteCmd_ge13 (cfg : Cfg) (st : St) (c : Int) (h : 13 ≤ c) :
    rewriteCmd cfg st c = c := by
  have hA : rewA cfg st c = c := by
    unfold rewA PANELWINDOW
    rw [if_neg (fun hc => absurd hc.1 (by omega))]
  have hB : rewB cfg st c = c := by
    unfold rewB PANELWINDOW
    rw [if_neg (fun hc => absurd hc.1 (by omega))]
  have hC : rewC st c = c := by
    unfold rewC PROGSWINDOW
    rw [if_neg (fun hc => absurd hc.1 (by omega))]
  have hD : rewD st c = c := by
    unfold rewD CONFIRMWINDOW
    rw [if_neg (fun hc => absurd hc.1 (by omega))]
  unfold rewriteCmd
  rw [hA, hB, hC, hD]

lemma runCase_ok_showpanel (cfg : Cfg) (st : St) (h : st.showpanel = true) :
    runCase cfg st OKWINDOW = ({ st with showpanel := false }, NOCOMMAND) := by
  unfold runCase
  rw [if_neg (by decide), if_neg (by decide), if_neg (by decide), if_neg (by decide),
    if_neg (by decide), if_neg (by decide), if_pos (by decide), if_pos h]

lemma numStep_showpanel (st : St) (c : Int) : (numStep st c).showpanel = st.showpanel := by
  unfold numStep
  split_ifs <;> rfl

lemma numStep_reg_panel (st : St) (c : Int) (h : st.showpanel = true) :
    (numStep st c).reg = (panelswitch st.reg (c - NUMWINDOW 1 - liveBefore st.reg)).1 := by
  unfold numStep
  rw [if_pos h]
  split_ifs <;> rfl

/-- Claim C3 amended: a numbered-selection command has no range guard; it is
exactly cursor movement plus confirm.  (a) With the program list shown (and
the panel list hidden), NUMWINDOW(i) for any i ≥ 1 — in or out of range — has
exactly the effect of setting the selection cursor to i-1 and issuing
OKWINDOW (so for 1 ≤ i ≤ n it selects entry i-1, and for i > n it still
closes the overlay with an out-of-range cursor rather than being a no-op).
(b) With the panel list shown and no panel withdrawn, NUMWINDOW(i) for
1 ≤ i ≤ numpanels makes panel i-1 the active panel. -/
theorem c3_numwindow (cfg : Cfg) (st : St) (i : Int) :
    (st.showprogs = true → st.showpanel = false → 1 ≤ i →
      execStep cfg st (NUMWINDOW i) =
        execStep cfg { st with progselected := i - 1 } OKWINDOW) ∧
    (st.showpanel = true → (∀ p ∈ st.reg.panels, p.withdrawn = false) →
      0 ≤ st.reg.activepanel → st.reg.activepanel < (st.reg.panels.length : Int) →
      1 ≤ i → i ≤ (st.reg.panels.length : Int) →
      ((execStep cfg st (NUMWINDOW i)).1).reg.activepanel = i - 1) := by
  constructor
  · intro hprogs hpanel hi
    have hge : 13 ≤ NUMWINDOW i := by unfold NUMWINDOW; omega
    have hrw1 : rewriteCmd cfg st (NUMWINDOW i) = NUMWINDOW i := rewriteCmd_ge13 _ _ _ hge
    have hrw2 : rewriteCmd cfg { st with progselected := i - 1 } OKWINDOW = OKWINDOW :=
      rewriteCmd_ge13 _ _ _ (by unfold OKWINDOW; omega)
    unfold execStep
    rw [hrw1, hrw2]
    rw [if_pos (show NUMWINDOW 1 ≤ NUMWINDOW i by unfold NUMWINDOW; omega)]
    rw [if_neg (fun hc => by simp [hpanel] at hc)]
    rw [if_neg (show ¬ NUMWINDOW 1 ≤ OKWINDOW by decide)]
    have hns : numStep st (NUMWINDOW i) = { st with progselected := i - 1 } := by
      unfold numStep
      rw [if_neg (by simp [hpanel]), if_pos hprogs]
      have he : NUMWINDOW i - NUMWINDOW 1 = i - 1 := by unfold NUMWINDOW; ring
      rw [he]
    rw [hns]
  · intro hpanel hall hap0 hapn hi1 hin
    have hge : 13 ≤ NUMWINDOW i := by unfold NUMWINDOW; omega
    have hrw1 : rewriteCmd cfg st (NUMWINDOW i) = NUMWINDOW i := rewriteCmd_ge13 _ _ _ hge
    unfold execStep
    rw [hrw1]
    rw [if_pos (show NUMWINDOW 1 ≤ NUMWINDOW i by unfold NUMWINDOW; omega)]
    rw [if_neg (fun hc => absurd hc.2 (by omega))]
    rw [runCase_ok_showpanel cfg _ (by rw [numStep_showpanel]; exact hpanel)]
    show (numStep st (NUMWINDOW i)).reg.activepanel = i - 1
    rw [numStep_reg_panel st _ hpanel]
    have hlb : liveBefore st.reg = st.reg.activepanel := by
      unfold liveBefore
      have hf : (st.reg.panels.take st.reg.activepanel.toNat).filter (fun p => ! p.withdrawn)
          = st.reg.panels.take st.reg.activepanel.toNat := by
        rw [List.filter_eq_self]
        intro a ha
        have hm := hall a (List.mem_of_mem_take ha)
        simp [hm]
      rw [hf, List.length_take,
        Nat.min_eq_left (show st.reg.activepanel.toNat ≤ st.reg.panels.length by omega)]
      omega
    have hne : ¬ st.reg.activepanel = -1 := by omega
    have hn0 : 0 < st.reg.panels.length := by omega
    have hloop : switchLoop (wsOf st.reg) (st.reg.panels.length : Int)
        (NUMWINDOW i - NUMWINDOW 1 - liveBefore st.reg) st.reg.panels.length
        st.reg.activepanel = some (i - 1) := by
      obtain ⟨f, hf⟩ : ∃ f, st.reg.panels.length = f + 1 :=
        ⟨st.reg.panels.length - 1, by omega⟩
      have hmi : moduleincrease st.reg.activepanel ((st.reg.panels.length : Nat) : Int)
          (NUMWINDOW i - NUMWINDOW 1 - liveBefore st.reg) = i - 1 := by
        rw [hlb]
        unfold moduleincrease
        have harg : st.reg.activepanel + ((st.reg.panels.length : Nat) : Int) +
            (NUMWINDOW i - NUMWINDOW 1 - st.reg.activepanel) =
            (i - 1) + ((st.reg.panels.length : Nat) : Int) * 1 := by
          unfold NUMWINDOW
          ring
        rw [harg, Int.tmod_eq_emod (by omega) (by omega), Int.add_mul_emod_self_left,
          Int.emod_eq_of_lt (by omega) (by omega)]
      have htn : (i - 1).toNat < st.reg.panels.length := by omega
      have hwd : wdAt (wsOf st.reg) (i - 1) = false := by
        unfold wdAt
        rw [wsOf_getD st.reg (i - 1).toNat htn]
        apply hall
        rw [List.getD_eq_get _ _ htn]
        exact List.get_mem _ _ _
      rw [hf, switchLoop_succ, ← hf, hmi]
      rw [if_neg (by rw [hwd]; exact Bool.false_ne_true)]
    have hps := panelswitch_some st.reg (NUMWINDOW i - NUMWINDOW 1 - liveBefore st.reg)
      hne (i - 1) hloop
    rw [hps]
    have hlive : (st.reg.panels.getD (i - 1).toNat dfltPanel).withdrawn = false := by
      apply hall
      rw [List.getD_eq_get _ _ (show (i - 1).toNat < st.reg.panels.length by omega)]
      exact List.get_mem _ _ _
    have hcast : (((i - 1).toNat : Nat) : Int) = i - 1 := by omega
    rw [← hcast]
    exact (panelenterReg_live st.reg (i - 1).toNat (by omega) hlive).2.2

/-- Witness for the amended C3 at concrete inputs: NUMWINDOW(1) in the program
list equals cursor-to-0 plus OKWINDOW, and NUMWINDOW(2) in an all-live panel
list activates panel 1. -/
theorem c3_witness :
    (c3wst.showprogs = true ∧ c3wst.showpanel = false ∧ (1 : Int) ≤ 1 ∧
      execStep c3wcfg c3wst (NUMWINDOW 1) =
        execStep c3wcfg { c3wst with progselected := 1 - 1 } OKWINDOW) ∧
    (c3pst.showpanel = true ∧ (∀ p ∈ c3pst.reg.panels, p.withdrawn = false) ∧
      (0 : Int) ≤ c3pst.reg.activepanel ∧
      c3pst.reg.activepanel < (c3pst.reg.panels.length : Int) ∧ (1 : Int) ≤ 2 ∧
      (2 : Int) ≤ (c3pst.reg.panels.length : Int) ∧
      ((execStep c3wcfg c3pst (NUMWINDOW 2)).1).reg.activepanel = 2 - 1) :=
  ⟨⟨by decide, by decide, by decide,
      (c3_numwindow c3wcfg c3wst 1).1 (by decide) (by decide) (by decide)⟩,
    ⟨by decide, by decide, by decide, by decide, by decide, by decide,
      (c3_numwindow c3wcfg c3pst 2).2 (by decide) (by decide) (by decide) (by decide)
        (by decide) (by decide)⟩⟩

/-- Claim C8: with a full override table, overrideadd emits a warning and
leaves the table completely unchanged; with a full panel registry, paneladd
reports the error, returns -1 and leaves the registry unchanged; both paths
return normally (the embedding is total, matching the absence of exit calls
in these paths). -/
theorem c8_capacity (ov : List OvWin) (win : Nat) (r : Reg) (w leader wrap : Nat) (nm : String)
    (hov : ov.length ≥ MAXOVERRIDE) (hr : r.panels.length ≥ MAXPANELS) :
    overrideadd ov win = ov ∧ paneladd r w leader wrap nm = (r, -1) := by
  constructor
  · unfold overrideadd
    rw [if_pos hov]
  · unfold paneladd
    rw [if_pos hr]

lemma fullOv_len : fullOv.length ≥ MAXOVERRIDE := by
  show (List.replicate 1000 (⟨7, UNMOVED, UNMOVED, false⟩ : OvWin)).length ≥ MAXOVERRIDE
  rw [List.length_replicate]
  unfold MAXOVERRIDE
  omega

lemma fullReg_len : fullReg.panels.length ≥ MAXPANELS := by
  show (List.replicate 1000 dfltPanel).length ≥ MAXPANELS
  rw [List.length_replicate]
  unfold MAXPANELS
  omega

lemma overrideplace_cons (e : OvWin) (rest : List OvWin) (win : Nat) (wa rwa : Geom)
    (r : Nat → Nat) (k : Nat) :
    overrideplace (e :: rest) win wa rwa r k =
      if e.win = win then
        ((overrideplaceEntry e wa rwa r k).1 :: rest, (overrideplaceEntry e wa rwa r k).2.1,
          (overrideplaceEntry e wa rwa r k).2.2)
      else
        (e :: (overrideplace rest win wa rwa r k).1, (overrideplace rest win wa rwa r k).2.1,
          (overrideplace rest win wa rwa r k).2.2) := rfl

lemma overrideplaceEntry_second (e : OvWin) (wa rwa : Geom) (r r2 : Nat → Nat) (k : Nat)
    (e2 : OvWin) (mv : Option (Int × Int)) (kk : Nat)
    (h : overrideplaceEntry e wa rwa r k = (e2, mv, kk)) :
    overrideplaceEntry e2 (applyMove wa mv) rwa r2 kk = (e2, none, kk) := by
  unfold overrideplaceEntry at h
  by_cases h0 : e.nx = wa.x ∧ e.ny = wa.y
  · rw [if_pos h0] at h
    injection h with hA hB
    injection hB with hC hD
    subst hA hC hD
    unfold applyMove overrideplaceEntry
    rw [if_pos h0]
  · rw [if_neg h0] at h
    by_cases h1 : (rbX wa rwa r k).1 = wa.x ∧ (rbY wa rwa r k).1 = wa.y
    · rw [if_pos h1] at h
      injection h with hA hB
      injection hB with hC hD
      subst hA hC hD
      unfold overrideplaceEntry
      exact if_pos h1
    · rw [if_neg h1] at h
      injection h with hA hB
      injection hB with hC hD
      subst hA hC hD
      unfold overrideplaceEntry
      exact if_pos ⟨rfl, rfl⟩

/-- Claim C6: with the position-fix toggle enabled, calling the placement
correction twice on a tracked window, the geometry unchanged except by the
routine's own first move, leaves the cached target position of both calls
identical (the whole table is unchanged by the second call) and the second
call issues no move request and consumes no randomness. -/
theorem c6_place_idempotent (ov : List OvWin) (win : Nat) (wa rwa : Geom)
    (r : Nat → Nat) (k : Nat) (ov1 : List OvWin) (mv1 : Option (Int × Int)) (k1 : Nat)
    (hmem : win ∈ ov.map OvWin.win)
    (h1 : overridefixplace true ov win wa rwa r k = (ov1, mv1, k1)) :
    overridefixplace true ov1 win (applyMove wa mv1) rwa r k1 = (ov1, none, k1) := by
  unfold overridefixplace at h1 ⊢
  rw [if_pos rfl] at h1 ⊢
  revert hmem h1
  induction ov generalizing wa k ov1 mv1 k1 with
  | nil =>
    intro hmem h1
    simp at hmem
  | cons e rest ih =>
    intro hmem h1
    rw [overrideplace_cons] at h1
    by_cases hw : e.win = win
    · rw [if_pos hw] at h1
      injection h1 with hA hB
      injection hB with hC hD
      subst hA hC hD
      have hsec := overrideplaceEntry_second e wa rwa r r
        k (overrideplaceEntry e wa rwa r k).1 (overrideplaceEntry e wa rwa r k).2.1
        (overrideplaceEntry e wa rwa r k).2.2 rfl
      have hwin : (overrideplaceEntry e wa rwa r k).1.win = e.win := by
        unfold overrideplaceEntry
        split_ifs <;> rfl
      rw [overrideplace_cons, if_pos (by rw [hwin]; exact hw), hsec]
    · rw [if_neg hw] at h1
      injection h1 with hA hB
      injection hB with hC hD
      subst hA hC hD
      have hmem' : win ∈ rest.map OvWin.win := by
        rw [List.map_cons] at hmem
        rcases List.mem_cons.mp hmem with he | ht
        · exact absurd he.symm hw
        · exact ht
      have hrec := ih wa k (overrideplace rest win wa rwa r k).1
        (overrideplace rest win wa rwa r k).2.1 (overrideplace rest win wa rwa r k).2.2
        hmem' rfl
      rw [overrideplace_cons, if_neg hw, hrec]

/-- Witness for C6: a one-entry table whose window needs the correction. -/
theorem c6_witness :
    (5 ∈ ([⟨5, UNMOVED, UNMOVED, false⟩] : List OvWin).map OvWin.win ∧
      overridefixplace true [⟨5, UNMOVED, UNMOVED, false⟩] 5
          ⟨-3, -4, 50, 60, 0⟩ ⟨0, 0, 100, 100, 0⟩ (fun _ => 0) 0 =
        ([⟨5, 0, 0, false⟩], some (0, 0), 2)) ∧
      overridefixplace true [⟨5, 0, 0, false⟩] 5
          (applyMove ⟨-3, -4, 50, 60, 0⟩ (some (0, 0))) ⟨0, 0, 100, 100, 0⟩ (fun _ => 0) 2 =
        ([⟨5, 0, 0, false⟩], none, 2) :=
  ⟨⟨by decide, by decide⟩,
    c6_place_idempotent [⟨5, UNMOVED, UNMOVED, false⟩] 5 ⟨-3, -4, 50, 60, 0⟩
      ⟨0, 0, 100, 100, 0⟩ (fun _ => 0) 0 [⟨5, 0, 0, false⟩] (some (0, 0)) 2
      (by decide) (by decide)⟩

/-- Witness for C8: a full override table and a full registry. -/
theorem c8_witness :
    (fullOv.length ≥ MAXOVERRIDE ∧ fullReg.panels.length ≥ MAXPANELS) ∧
      overrideadd fullOv 9 = fullOv ∧ paneladd fullReg 9 0 10 "x" = (fullReg, -1) :=
  ⟨⟨fullOv_len, fullReg_len⟩, c8_capacity fullOv 9 fullReg 9 0 10 "x" fullOv_len fullReg_len⟩

/-- Claim C5: a protocol error event is swallowed if and only if it matches
the fixed policy (BadWindow on map, change-property, set-input-focus,
configure or get-attributes, or BadAtom on get-atom-name); every other error
event is forwarded to the default error handler. -/
theorem c5_error_policy (ec rc : Nat) : errorSwallowed ec rc = true ↔ SwallowPolicy ec rc := by
  unfold errorSwallowed SwallowPolicy
  split_ifs with h1 h2
  · simp only [List.mem_cons, List.mem_singleton, true_iff]
    tauto
  · simp only [List.mem_cons, List.mem_singleton, true_iff]
    tauto
  · simp only [List.mem_cons, List.mem_singleton, false_iff]
    tauto

/-- Witness for C1: on c1reg (two live panels), two applications of switch(+1)
restore the active index. -/
theorem c1_witness :
    ((0 : Int) ≤ c1reg.activepanel ∧ c1reg.activepanel < (c1reg.panels.length : Int) ∧
      (wsOf c1reg).getD c1reg.activepanel.toNat true = false) ∧
      ((switchNext^[liveCount c1reg.panels] c1reg).activepanel = c1reg.activepanel ∧
        ∀ s, 1 ≤ s → s ≤ liveCount c1reg.panels →
          0 ≤ (switchNext^[s] c1reg).activepanel ∧
          (switchNext^[s] c1reg).activepanel < ((switchNext^[s] c1reg).panels.length : Int) ∧
          (wsOf (switchNext^[s] c1reg)).getD (switchNext^[s] c1reg).activepanel.toNat true
            = false) :=
  ⟨⟨by decide, by decide, by decide⟩,
    c1_switch_cycle c1reg (by decide) (by decide) (by decide)⟩

/-- Witness for C10 at a concrete input: three slots, the middle one live. -/
theorem c10_witness :
    ((1 : Int) = 1 ∨ (1 : Int) = -1) ∧ (0 : Int) < 3 ∧ (3 : Int).toNat ≤ 3 ∧
      (∃ p : Nat, p < (3 : Int).toNat ∧ [true, false, true].getD p true = false) ∧
      (0 : Int) ≤ 0 ∧ (0 : Int) < 3 ∧
      (∃ j : Int, switchLoop [true, false, true] 3 1 3 0 = some j ∧ 0 ≤ j ∧ j < 3 ∧
        [true, false, true].getD j.toNat true = false) :=
  ⟨Or.inl rfl, by decide, by decide, ⟨1, by decide⟩, by decide, by decide,
    c10_switchLoop_terminates [true, false, true] 3 1 0 3 (Or.inl rfl) (by decide)
      (by decide) ⟨1, by decide⟩ (by decide) (by decide)⟩

/-- Counterexample to C7: for the numbered-selection id NUMWINDOW(10) = 110
the synthesized name embeds the raw id ("NUMWINDOW(110)"), so parsing it
back applies the NUMWINDOW offset again and yields 210, not 110. -/
theorem c7_counterexample :
    stringtocommand (commandtostring (NUMWINDOW 10)) = NUMWINDOW (NUMWINDOW 10) ∧
      NUMWINDOW (NUMWINDOW 10) ≠ NUMWINDOW 10 := by decide

/-- Claim C7 (amended): name and id lookup are mutually inverse exactly on
the vocabulary table, which lists the named commands and the numbered
selections NUMWINDOW(1) through NUMWINDOW(9); for those ids converting the
id to its name and back yields the original id. -/
theorem c7_roundtrip : ∀ c ∈ commandTable.map Prod.fst,
    stringtocommand (commandtostring c) = c := by decide

/-- Witness for C7 at a concrete vocabulary id: QUIT. -/
theorem c7_witness :
    QUIT ∈ commandTable.map Prod.fst ∧ stringtocommand (commandtostring QUIT) = QUIT :=
  ⟨by decide, c7_roundtrip QUIT (by decide)⟩

end Irwm

